import Mathlib

/-!
Verification of the cactuswar client state-synchronization core: the wire codec
and Census decoder (src/protocol.rs), the interpolation primitives (src/util.rs),
the Census reconciler and the player lifecycle handlers (src/lib.rs).

Floats are modelled as rationals wherever the code only moves them around or
compares them, as reals for the trigonometric angle interpolation, and as raw
IEEE-754 bit patterns inside the byte-level decoder where the wire carries them
verbatim.
-/

set_option maxHeartbeats 1000000

namespace Util

/-- util.rs Lerp::lerp for any numeric type: self + ((other - self) * t). -/
def lerp {α : Type} [Add α] [Sub α] [Mul α] (a b t : α) : α :=
  a + (b - a) * t

/-- util.rs Scalar: a rendered value and a target value tv. Floats as rationals. -/
structure Scalar where
  value : ℚ
  tv : ℚ
deriving DecidableEq, Repr

/-- util.rs Scalar::new: value and target both start at e. -/
def Scalar.new (e : ℚ) : Scalar := ⟨e, e⟩

/-- util.rs Scalar::update: value := lerp(value, tv, e). -/
def Scalar.update (s : Scalar) (e : ℚ) : Scalar :=
  { s with value := lerp s.value s.tv e }

/-- util.rs Scalar::set_update: tv := e, then update(t). -/
def Scalar.set_update (s : Scalar) (e t : ℚ) : Scalar :=
  Scalar.update { s with tv := e } t

/-- util.rs Vector2. -/
structure Vector2 (α : Type) where
  x : α
  y : α
deriving DecidableEq, Repr

end Util

namespace Proto

/-- engine.rs Input: the currently pressed keys and mouse state. Mouse
coordinates are 16-bit signed integers, modelled as Int. -/
structure Input where
  W : Bool
  A : Bool
  S : Bool
  D : Bool
  mouse_down : Bool
  mouse_position : Util.Vector2 Int
deriving DecidableEq, Repr

/-- engine.rs Input::new: no keys pressed, mouse at the origin. -/
def Input.new : Input := ⟨false, false, false, false, false, ⟨0, 0⟩⟩

/-- protocol.rs InputPacket. -/
structure InputPacket where
  W : Bool
  A : Bool
  S : Bool
  D : Bool
  mouse_down : Bool
  mouse_position : Util.Vector2 Int
deriving DecidableEq, Repr

/-- protocol.rs InputPacket::from_input. -/
def InputPacket.from_input (i : Input) : InputPacket :=
  ⟨i.W, i.A, i.S, i.D, i.mouse_down, i.mouse_position⟩

/-- protocol.rs InputPacket::encode flag byte: w | a | s | d | mouse_down with
bit weights 0b10000, 0b01000, 0b00100, 0b00010, 0b00001. -/
def InputPacket.flagByte (p : InputPacket) : Nat :=
  (if p.W then 16 else 0) ||| (if p.A then 8 else 0) ||| (if p.S then 4 else 0) |||
    (if p.D then 2 else 0) ||| (if p.mouse_down then 1 else 0)

/-- Twos-complement 16-bit little-endian byte split, used by the encoders. -/
def i16leBytes (z : Int) : List Nat :=
  [((z % 65536).toNat) % 256, ((z % 65536).toNat) / 256 % 256]

/-- protocol.rs InputPacket::encode: packet id 1, the flag byte, then the two
signed 16-bit mouse coordinates. -/
def InputPacket.encode (p : InputPacket) : List Nat :=
  1 :: p.flagByte :: (i16leBytes p.mouse_position.x ++ i16leBytes p.mouse_position.y)

/-- Modelled from the spec: InputPacket::decode is unimplemented in the source,
so the inverse direction follows the spec bit table (bit4=Up/W, bit3=Left/A,
bit2=Down/S, bit1=Right/D, bit0=primary action). -/
def decodeFlagByte (n : Nat) : Bool × Bool × Bool × Bool × Bool :=
  (n.testBit 4, n.testBit 3, n.testBit 2, n.testBit 1, n.testBit 0)

end Proto

namespace Wire

/-- Modelled from the spec: binary.rs (StreamPeerBuffer) is used by protocol.rs
but its source is not under src. The spec fixes the contract: a sequential
cursor over an owned byte sequence, fixed-width integer and float reads, and
length-prefixed UTF-8 strings. Bytes are naturals below 256, multi-byte
integers are little-endian, and 32-bit floats are carried as their raw
IEEE-754 bit pattern. -/
structure SPB where
  data : List Nat
  cursor : Nat
deriving DecidableEq, Repr

/-- Byte at an absolute index. Reading past the end is a decode failure in the
source (a panic); it is modelled as the byte 0, and every theorem below stays
within bounds. -/
def SPB.byteAt (b : SPB) (i : Nat) : Nat := b.data.getD i 0

/-- Sequential one-byte read. -/
def SPB.get_u8 (b : SPB) : Nat × SPB :=
  (b.byteAt b.cursor, { b with cursor := b.cursor + 1 })

/-- Sequential two-byte little-endian read. -/
def SPB.get_u16 (b : SPB) : Nat × SPB :=
  (b.byteAt b.cursor + 256 * b.byteAt (b.cursor + 1), { b with cursor := b.cursor + 2 })

/-- Sequential four-byte little-endian read. -/
def SPB.get_u32 (b : SPB) : Nat × SPB :=
  (b.byteAt b.cursor + 256 * b.byteAt (b.cursor + 1) + 65536 * b.byteAt (b.cursor + 2) +
      16777216 * b.byteAt (b.cursor + 3),
   { b with cursor := b.cursor + 4 })

/-- Sequential signed 16-bit read: twos complement. -/
def SPB.get_16 (b : SPB) : Int × SPB :=
  let r := b.get_u16
  (if r.1 < 32768 then (r.1 : Int) else (r.1 : Int) - 65536, r.2)

/-- Sequential 32-bit float read, carried as the raw IEEE-754 bit pattern. -/
def SPB.get_float (b : SPB) : Nat × SPB := b.get_u32

/-- Sequential length-prefixed string read: a 16-bit byte length then that many
bytes (all strings in the theorems below are ASCII, where byte values and
code points coincide). -/
def SPB.get_utf8 (b : SPB) : String × SPB :=
  let r := b.get_u16
  (String.mk (((List.range r.1).map (fun i => r.2.byteAt (r.2.cursor + i))).map Char.ofNat),
   { r.2 with cursor := r.2.cursor + r.1 })

/-- Sign analysis of an IEEE-754 single-precision bit pattern: the source test
health < 0.0 holds exactly for patterns denoting a value strictly below zero,
i.e. sign bit set, not a NaN, and not negative zero. -/
def f32IsNegative (bits : Nat) : Bool :=
  decide (2 ^ 31 ≤ bits) &&
    !(decide (bits / 2 ^ 23 % 256 = 255) && decide (bits % 2 ^ 23 ≠ 0)) &&
    decide (bits ≠ 2 ^ 31)

/-- protocol.rs Census::decode Tank arm health clamp: a negative decoded health
is replaced by 0.0 (bit pattern 0). -/
def clampHealth (h : Nat) : Nat := if f32IsNegative h then 0 else h

/-- protocol.rs TankPacket, float fields as raw f32 bit patterns. -/
structure TankPacket where
  id : Nat
  position : Util.Vector2 Int
  rotation : Nat
  velocity : Util.Vector2 Int
  mockup : Nat
  health : Nat
  radius : Nat
  name : String
  message : String
deriving DecidableEq, Repr

/-- protocol.rs ShapePacket, float fields as raw f32 bit patterns. -/
structure ShapePacket where
  id : Nat
  position : Util.Vector2 Int
  health : Nat
  radius : Nat
deriving DecidableEq, Repr

/-- protocol.rs BulletPacket. -/
structure BulletPacket where
  id : Nat
  position : Util.Vector2 Int
  radius : Nat
  velocity : Util.Vector2 Int
  owner : Nat
deriving DecidableEq, Repr

/-- protocol.rs Entity: the tagged census entity record. -/
inductive Entity where
  | Tank (t : TankPacket)
  | Shape (s : ShapePacket)
  | Bullet (bl : BulletPacket)
deriving DecidableEq, Repr

/-- protocol.rs Census. The Rust entities HashMap is modelled as the list of
(game id, record) pairs in decode order; insertion overwrites duplicates in
the source, and every buffer in the theorems below has distinct ids. The level
float is carried as its raw f32 bit pattern. -/
structure Census where
  entity_count : Nat
  arena_size : Nat
  level : Nat
  entities : List (Nat × Entity)
deriving DecidableEq, Repr

/-- One iteration of the protocol.rs Census::decode entity loop. The unknown
kind arm logs an error whose argument reads one u32 (the would-be game id),
inserts nothing, and leaves the cursor there: only 5 bytes of the record are
consumed. -/
def decodeEntityRecord (b : SPB) : Option (Nat × Entity) × SPB :=
  let rk := b.get_u8
  match rk.1 with
  | 0 =>
    let b := rk.2
    let rid := b.get_u32
    let rpx := rid.2.get_16
    let rpy := rpx.2.get_16
    let rrot := rpy.2.get_float
    let rvx := rrot.2.get_16
    let rvy := rvx.2.get_16
    let rmk := rvy.2.get_u8
    let rh := rmk.2.get_float
    let rrad := rh.2.get_u16
    let rnm := rrad.2.get_utf8
    let rmsg := rnm.2.get_utf8
    (some (rid.1, .Tank ⟨rid.1, ⟨rpx.1, rpy.1⟩, rrot.1, ⟨rvx.1, rvy.1⟩, rmk.1,
        clampHealth rh.1, rrad.1, rnm.1, rmsg.1⟩), rmsg.2)
  | 1 =>
    let b := rk.2
    let rid := b.get_u32
    let rpx := rid.2.get_16
    let rpy := rpx.2.get_16
    let rh := rpy.2.get_float
    let rrad := rh.2.get_u16
    (some (rid.1, .Shape ⟨rid.1, ⟨rpx.1, rpy.1⟩, rh.1, rrad.1⟩), rrad.2)
  | 2 =>
    let b := rk.2
    let rid := b.get_u32
    let rpx := rid.2.get_16
    let rpy := rpx.2.get_16
    let rrad := rpy.2.get_u16
    let rvx := rrad.2.get_16
    let rvy := rvx.2.get_16
    let rown := rvy.2.get_u32
    (some (rid.1, .Bullet ⟨rid.1, ⟨rpx.1, rpy.1⟩, rrad.1, ⟨rvx.1, rvy.1⟩, rown.1⟩), rown.2)
  | _ =>
    let rid := rk.2.get_u32
    (none, rid.2)

/-- The protocol.rs Census::decode entity loop, one call per entity_count. -/
def decodeEntities : Nat → SPB → List (Nat × Entity) × SPB
  | 0, b => ([], b)
  | n + 1, b =>
    match decodeEntityRecord b with
    | (some e, b2) =>
      let rest := decodeEntities n b2
      (e :: rest.1, rest.2)
    | (none, b2) => decodeEntities n b2

/-- protocol.rs Census::decode: header (entity count, arena size, level) then
the entity loop. -/
def Census.decode (b : SPB) : Census :=
  let rec_ := b.get_u16
  let ras := rec_.2.get_u16
  let rlv := ras.2.get_float
  let res := decodeEntities rec_.1 rlv.2
  ⟨rec_.1, ras.1, rlv.1, res.1⟩

/-- Little-endian byte split of a 16-bit value, used to hand-build buffers. -/
def u16le (n : Nat) : List Nat := [n % 256, n / 256 % 256]

/-- Little-endian byte split of a 32-bit value. -/
def u32le (n : Nat) : List Nat :=
  [n % 256, n / 256 % 256, n / 65536 % 256, n / 16777216 % 256]

/-- Twos-complement little-endian byte split of a signed 16-bit value. -/
def i16le (z : Int) : List Nat := u16le (z % 65536).toNat

/-- Length-prefixed ASCII string encoding. -/
def strle (s : String) : List Nat := u16le s.length ++ s.data.map Char.toNat

/-- Hand-built census buffer: entity_count 1, arena_size 1000, level 2.5
(f32 bits 0x40200000), one Tank record with id 7, position (10, -5),
rotation 0.0, velocity (0, 0), mockup 0, health 0.8 (f32 bits 0x3F4CCCCD),
radius 50, name X, empty message. -/
def c3Buf : SPB :=
  ⟨u16le 1 ++ u16le 1000 ++ u32le 0x40200000 ++
    ([0] ++ u32le 7 ++ i16le 10 ++ i16le (-5) ++ u32le 0 ++ i16le 0 ++ i16le 0 ++
      [0] ++ u32le 0x3F4CCCCD ++ u16le 50 ++ strle "X" ++ strle ""), 0⟩

/-- The same census buffer with the tank health field replaced by -1.0
(f32 bits 0xBF800000), a negative value. -/
def c3BufNeg : SPB :=
  ⟨u16le 1 ++ u16le 1000 ++ u32le 0x40200000 ++
    ([0] ++ u32le 7 ++ i16le 10 ++ i16le (-5) ++ u32le 0 ++ i16le 0 ++ i16le 0 ++
      [0] ++ u32le 0xBF800000 ++ u16le 50 ++ strle "X" ++ strle ""), 0⟩

/-- Census buffer with two records: an unknown-kind record (kind byte 3) whose
body happens to be exactly one u32 wide, then a valid Shape record with id 9,
position (1, 2), health 1.0 and radius 20. The unknown record is skipped
cleanly because its width matches the 5 bytes the error arm consumes. -/
def c7SkipBuf : SPB :=
  ⟨u16le 2 ++ u16le 100 ++ u32le 0 ++
    ([3] ++ u32le 99) ++
    ([1] ++ u32le 9 ++ i16le 1 ++ i16le 2 ++ u32le 0x3F800000 ++ u16le 20), 0⟩

/-- Census buffer with two records: an unknown-kind record (kind byte 3) with a
14-byte shape-like body, then a valid Tank record with id 7. The error arm
consumes only 5 bytes, so the cursor lands inside the first record body and
the remainder of the buffer is parsed misaligned. -/
def c7DesyncBuf : SPB :=
  ⟨u16le 2 ++ u16le 100 ++ u32le 0 ++
    ([3] ++ u32le 99 ++ [1, 0, 251, 255, 0, 0, 128, 63, 20, 0]) ++
    ([0] ++ u32le 7 ++ i16le 10 ++ i16le (-5) ++ u32le 0 ++ i16le 0 ++ i16le 0 ++
      [0] ++ u32le 0x3F4CCCCD ++ u16le 50 ++ strle "X" ++ strle ""), 0⟩

/-- Census buffer with one Shape record with id 5, position (3, 4), health
-1.0 (f32 bits 0xBF800000, a negative value) and radius 20. -/
def c10ShapeBuf : SPB :=
  ⟨u16le 1 ++ u16le 200 ++ u32le 0 ++
    ([1] ++ u32le 5 ++ i16le 3 ++ i16le 4 ++ u32le 0xBF800000 ++ u16le 20), 0⟩

/-- Census buffer with one Tank record with id 5 and the same negative health
bit pattern 0xBF800000, to contrast the Tank clamp with the Shape pass-through. -/
def c10TankBuf : SPB :=
  ⟨u16le 1 ++ u16le 200 ++ u32le 0 ++
    ([0] ++ u32le 5 ++ i16le 3 ++ i16le 4 ++ u32le 0 ++ i16le 0 ++ i16le 0 ++
      [0] ++ u32le 0xBF800000 ++ u16le 20 ++ strle "" ++ strle ""), 0⟩

end Wire

namespace Recon

/-!
The Census reconciler of lib.rs (onmessage Census branch, lines 634-887) and
the per-frame draw mutations of engine.rs, at the layer where float fields are
already decoded; floats are modelled as rationals.
-/

/-- protocol.rs TankPacket as consumed by the reconciler, floats as rationals. -/
structure TankPacket where
  id : Nat
  position : Util.Vector2 Int
  rotation : ℚ
  velocity : Util.Vector2 Int
  mockup : Nat
  health : ℚ
  radius : Nat
  name : String
  message : String
deriving DecidableEq, Repr

/-- protocol.rs ShapePacket as consumed by the reconciler. -/
structure ShapePacket where
  id : Nat
  position : Util.Vector2 Int
  health : ℚ
  radius : Nat
deriving DecidableEq, Repr

/-- protocol.rs BulletPacket as consumed by the reconciler. -/
structure BulletPacket where
  id : Nat
  position : Util.Vector2 Int
  radius : Nat
  velocity : Util.Vector2 Int
  owner : Nat
deriving DecidableEq, Repr

/-- protocol.rs Entity. -/
inductive PEntity where
  | Tank (t : TankPacket)
  | Shape (s : ShapePacket)
  | Bullet (bl : BulletPacket)
deriving DecidableEq, Repr

/-- The kind discriminant of a census entity record. -/
def PEntity.kindTag : PEntity → Nat
  | .Tank _ => 0
  | .Shape _ => 1
  | .Bullet _ => 2

/-- protocol.rs Census with decoded entities, keyed by game id. -/
structure Census where
  entity_count : Nat
  arena_size : Nat
  level : ℚ
  entities : List (Nat × PEntity)
deriving DecidableEq, Repr

/-- First-match association lookup on the entity list. -/
def lookupKey (k : Nat) : List (Nat × PEntity) → Option PEntity
  | [] => none
  | (a, e) :: t => if a = k then some e else lookupKey k t

/-- HashMap::contains_key on the census entities. -/
def Census.contains_key (c : Census) (k : Nat) : Bool := (lookupKey k c.entities).isSome

/-- The census entity keys are distinct, as HashMap keys are in the source. -/
def nodupKeys (l : List (Nat × PEntity)) : Prop := (l.map Prod.fst).Nodup

/-- engine.rs Light. -/
structure Light where
  x : ℚ
  y : ℚ
  r : ℚ
  color : String
deriving DecidableEq, Repr

/-- engine.rs Tank (client-side render state). The message field appears in the
lib.rs constructor of this struct. -/
structure ETank where
  id : Nat
  name : String
  position : Util.Vector2 ℚ
  net_position : Util.Vector2 ℚ
  net_rotation : ℚ
  velocity : Util.Vector2 ℚ
  rotation : ℚ
  light : Light
  yourself : Bool
  mockup : Nat
  health : Util.Scalar
  radius : Nat
  damaged : Bool
  opacity : Util.Scalar
  message : String
deriving DecidableEq, Repr

/-- engine.rs Shape (client-side render state). The cached canvas texture is
modelled as an Option Unit token; the radius field appears in the lib.rs
constructor of this struct. -/
structure EShape where
  id : Nat
  position : Util.Vector2 ℚ
  net_position : Util.Vector2 ℚ
  velocity : Util.Vector2 ℚ
  rotation : ℚ
  sides : Nat
  health : ℚ
  damaged : Bool
  opacity : Util.Scalar
  cached_tex : Option Unit
  needs_redraw : Bool
  radius : Nat
deriving DecidableEq, Repr

/-- engine.rs Bullet (client-side render state). -/
structure EBullet where
  id : Nat
  position : Util.Vector2 ℚ
  net_position : Util.Vector2 ℚ
  velocity : Util.Vector2 ℚ
  radius : Nat
  opacity : Util.Scalar
  scale : Util.Scalar
  cached_tex : Option Unit
  color : String
deriving DecidableEq, Repr

/-- engine.rs Entity: the tagged client entity stored by the world. -/
inductive EEntity where
  | Tank (t : ETank)
  | Shape (s : EShape)
  | Bullet (bl : EBullet)
deriving DecidableEq, Repr

/-- The kind tag of a cached entity, on the same scale as PEntity.kindTag. -/
def EEntity.kindTag : EEntity → Nat
  | .Tank _ => 0
  | .Shape _ => 1
  | .Bullet _ => 2

/-- The rendered opacity value of a cached entity. -/
def EEntity.opacityValue : EEntity → ℚ
  | .Tank t => t.opacity.value
  | .Shape s => s.opacity.value
  | .Bullet bl => bl.opacity.value

/-- The opacity target of a cached entity. -/
def EEntity.opacityTv : EEntity → ℚ
  | .Tank t => t.opacity.tv
  | .Shape s => s.opacity.tv
  | .Bullet bl => bl.opacity.tv

/-- The target values of a cached entity: net position, net rotation (tanks),
health target (the plain health field is the target for shapes), opacity
target, and scale target (bullets). -/
structure Targets where
  net_position : Util.Vector2 ℚ
  net_rotation : Option ℚ
  health_tv : Option ℚ
  opacity_tv : ℚ
  scale_tv : Option ℚ
deriving DecidableEq, Repr

/-- Projection of a cached entity onto its target values. -/
def EEntity.targets : EEntity → Targets
  | .Tank t => ⟨t.net_position, some t.net_rotation, some t.health.tv, t.opacity.tv, none⟩
  | .Shape s => ⟨s.net_position, none, some s.health, s.opacity.tv, none⟩
  | .Bullet bl => ⟨bl.net_position, none, none, bl.opacity.tv, some bl.scale.tv⟩

/-- lib.rs onmessage Census retain closure (lines 647-687), for one cached
entity under key k: delete it when its rendered opacity is below 0.05; keep it
untouched when its id is in the census; otherwise set its opacity target to 0
(and, for a bullet, its scale target to 2.0) through set_update and keep it. -/
def purgeEntity (c : Census) (k : Nat) (e : EEntity) : Option EEntity :=
  match e with
  | .Bullet bl =>
    if bl.opacity.value < 1 / 20 then none
    else if c.contains_key k then some (.Bullet bl)
    else some (.Bullet { bl with opacity := bl.opacity.set_update 0 (1 / 10),
                                 scale := bl.scale.set_update 2 (1 / 10) })
  | .Tank t =>
    if t.opacity.value < 1 / 20 then none
    else if c.contains_key k then some (.Tank t)
    else some (.Tank { t with opacity := t.opacity.set_update 0 (1 / 10) })
  | .Shape s =>
    if s.opacity.value < 1 / 20 then none
    else if c.contains_key k then some (.Shape s)
    else some (.Shape { s with opacity := s.opacity.set_update 0 (1 / 10) })

/-- The fade step the retain closure applies to a retained, census-absent
entity, named for the proofs below. -/
def fadeEntity : EEntity → EEntity
  | .Tank t => .Tank { t with opacity := t.opacity.set_update 0 (1 / 10) }
  | .Shape s => .Shape { s with opacity := s.opacity.set_update 0 (1 / 10) }
  | .Bullet bl => .Bullet { bl with opacity := bl.opacity.set_update 0 (1 / 10),
                                    scale := bl.scale.set_update 2 (1 / 10) }

/-- lib.rs 693-705: census data written onto the locally controlled tank. -/
def yourselfApply (y : ETank) (t : TankPacket) : ETank :=
  { y with net_position := ⟨(t.position.x : ℚ), (t.position.y : ℚ)⟩
           mockup := t.mockup
           radius := t.radius
           damaged := if y.health.tv > t.health then true else y.damaged
           health := { y.health with tv := t.health }
           message := t.message }

/-- lib.rs 719-738: census data blended into a cached foreign tank. -/
def tankApply (e : ETank) (ce : TankPacket) : ETank :=
  { e with net_position := ⟨(ce.position.x : ℚ), (ce.position.y : ℚ)⟩
           net_rotation := ce.rotation
           mockup := ce.mockup
           velocity := if e.yourself then e.velocity
                       else ⟨(ce.velocity.x : ℚ) / 2, (ce.velocity.y : ℚ) / 2⟩
           damaged := if ce.health < e.health.tv then true else e.damaged
           health := { e.health with tv := ce.health }
           radius := ce.radius
           message := ce.message }

/-- lib.rs 743-778: a tank entity freshly inserted from a census record. -/
def newTank (k : Nat) (ce : TankPacket) : ETank :=
  { id := k
    name := ce.name
    position := ⟨(ce.position.x : ℚ), (ce.position.y : ℚ)⟩
    net_position := ⟨(ce.position.x : ℚ), (ce.position.y : ℚ)⟩
    velocity := ⟨(ce.velocity.x : ℚ) / 4, (ce.velocity.y : ℚ) / 4⟩
    rotation := ce.rotation
    light := ⟨0, 0, 1000, "rgba(252, 250, 157, 0.4)"⟩
    yourself := false
    net_rotation := ce.rotation
    mockup := ce.mockup
    radius := ce.radius
    health := Util.Scalar.new ce.health
    damaged := false
    opacity := Util.Scalar.new 1
    message := ce.message }

/-- lib.rs 788-797: census data blended into a cached shape. -/
def shapeApply (e : EShape) (ce : ShapePacket) : EShape :=
  { e with net_position := ⟨(ce.position.x : ℚ), (ce.position.y : ℚ)⟩
           damaged := if ce.health < e.health then true else e.damaged
           needs_redraw := if ce.health < e.health then true else e.needs_redraw
           health := ce.health }

/-- Rust saturating cast from a float to u8, used for the random side count. -/
def rustAsU8 (q : ℚ) : Nat := (max 0 (min 255 ⌊q⌋)).toNat

/-- lib.rs 802-828: a shape entity freshly inserted from a census record; rand
stands for the js Math.random() sample in [0, 1). -/
def newShape (rand : ℚ) (k : Nat) (ce : ShapePacket) : EShape :=
  { id := k
    position := ⟨(ce.position.x : ℚ), (ce.position.y : ℚ)⟩
    net_position := ⟨(ce.position.x : ℚ), (ce.position.y : ℚ)⟩
    sides := rustAsU8 (rand * 10 + 10)
    velocity := ⟨0, 0⟩
    rotation := (ce.position.x : ℚ) + (ce.position.y : ℚ)
    health := ce.health
    damaged := false
    opacity := Util.Scalar.new 1
    cached_tex := none
    needs_redraw := true
    radius := ce.radius }

/-- lib.rs 837-847: census data blended into a cached bullet. -/
def bulletApply (e : EBullet) (ce : BulletPacket) : EBullet :=
  { e with net_position := ⟨(ce.position.x : ℚ), (ce.position.y : ℚ)⟩
           velocity := ⟨(ce.velocity.x : ℚ) / 3, (ce.velocity.y : ℚ) / 3⟩ }

/-- lib.rs 851-881: a bullet entity freshly inserted from a census record. -/
def newBullet (yid k : Nat) (ce : BulletPacket) : EBullet :=
  { id := k
    position := ⟨(ce.position.x : ℚ), (ce.position.y : ℚ)⟩
    net_position := ⟨(ce.position.x : ℚ), (ce.position.y : ℚ)⟩
    radius := ce.radius
    velocity := ⟨(ce.velocity.x : ℚ) / 3, (ce.velocity.y : ℚ) / 3⟩
    opacity := Util.Scalar.new 1
    scale := Util.Scalar.new 1
    cached_tex := none
    color := if ce.owner = yid then "#00e6f2" else "#f28900" }

/-- The world state touched by the Census branch of lib.rs onmessage: the
controlled tank, the arena size scalar, the level scalar (world.state.level)
and the entity store, the HashMap modelled as a function from ids. -/
structure World where
  yourself : ETank
  size : Util.Scalar
  level : Util.Scalar
  entities : Nat → Option EEntity

/-- HashMap::insert on the entity store. -/
def storeInsert (f : Nat → Option EEntity) (k : Nat) (v : EEntity) : Nat → Option EEntity :=
  fun k2 => if k2 = k then some v else f k2

/-- One iteration of the lib.rs update/insert loop (lines 689-886) for the
census pair p: writes onto the controlled tank when the id matches yid,
otherwise updates the cached entity of the same kind in place, does nothing on
a kind mismatch (the wildcard arms), and inserts a fresh entity for a new id. -/
def applyEntity (yid : Nat) (rand : ℚ) (w : World) (p : Nat × PEntity) : World :=
  if p.1 = yid then
    match p.2 with
    | .Tank t => { w with yourself := yourselfApply w.yourself t }
    | _ => w
  else
    match p.2 with
    | .Tank ce =>
      match w.entities p.1 with
      | some ge =>
        match ge with
        | .Tank e => { w with entities := storeInsert w.entities p.1 (.Tank (tankApply e ce)) }
        | _ => w
      | none => { w with entities := storeInsert w.entities p.1 (.Tank (newTank p.1 ce)) }
    | .Shape ce =>
      match w.entities p.1 with
      | some ge =>
        match ge with
        | .Shape e => { w with entities := storeInsert w.entities p.1 (.Shape (shapeApply e ce)) }
        | _ => w
      | none => { w with entities := storeInsert w.entities p.1 (.Shape (newShape rand p.1 ce)) }
    | .Bullet ce =>
      match w.entities p.1 with
      | some ge =>
        match ge with
        | .Bullet e => { w with entities := storeInsert w.entities p.1 (.Bullet (bulletApply e ce)) }
        | _ => w
      | none => { w with entities := storeInsert w.entities p.1 (.Bullet (newBullet yid p.1 ce)) }

/-- The per-key effect of the update/insert loop on a non-yourself census key,
named for the proofs below: update the matching kind in place, keep the cached
entity on a kind mismatch, insert fresh for a new id. -/
def keyApply (yid : Nat) (rand : ℚ) (cur : Option EEntity) (k : Nat) (pe : PEntity) : EEntity :=
  match pe, cur with
  | .Tank ce, some (.Tank e) => .Tank (tankApply e ce)
  | .Tank ce, none => .Tank (newTank k ce)
  | .Tank _, some other => other
  | .Shape ce, some (.Shape e) => .Shape (shapeApply e ce)
  | .Shape ce, none => .Shape (newShape rand k ce)
  | .Shape _, some other => other
  | .Bullet ce, some (.Bullet e) => .Bullet (bulletApply e ce)
  | .Bullet ce, none => .Bullet (newBullet yid k ce)
  | .Bullet _, some other => other

/-- lib.rs onmessage Census branch (lines 634-887): read the controlled id,
set the arena size and level targets from the snapshot, run the retain
(purge) pass over the cache, then fold the update/insert loop over the census
entities. rand stands for the js Math.random() sample drawn at shape
insertion. -/
def censusStep (rand : ℚ) (w : World) (c : Census) : World :=
  let yid := w.yourself.id
  let w1 : World :=
    { w with size := { w.size with tv := (c.arena_size : ℚ) }
             level := { w.level with tv := c.level }
             entities := fun k => (w.entities k).bind (purgeEntity c k) }
  c.entities.foldl (applyEntity yid rand) w1

/-- engine.rs Tank::draw state mutations (lines 65-146): position eased toward
net_position then advanced by velocity, opacity and health eased with rate
0.2, velocity damped by 0.8, the damage flag cleared, the light re-centered.
The rotation after the frame comes from lerp_angle, a transcendental function
of the old state; it is supplied as the oracle parameter rot and feeds no
other field. -/
def tankDraw (rot : ℚ) (t : ETank) : ETank :=
  let px := Util.lerp t.position.x t.net_position.x (1 / 20) + t.velocity.x
  let py := Util.lerp t.position.y t.net_position.y (1 / 20) + t.velocity.y
  { t with position := ⟨px, py⟩
           rotation := if t.yourself then t.rotation else rot
           opacity := t.opacity.update (1 / 5)
           health := t.health.update (1 / 5)
           velocity := ⟨t.velocity.x * (4 / 5), t.velocity.y * (4 / 5)⟩
           damaged := false
           light := ⟨px, py, 1300, "rgba(252, 250, 157, 0.35)"⟩ }

/-- engine.rs Shape::draw state mutations (lines 165-266): position eased,
opacity eased with rate 0.1, an odd side count bumped to even, the redraw and
damage flags folded, the texture cached. -/
def shapeDraw (s : EShape) : EShape :=
  { s with position := ⟨Util.lerp s.position.x s.net_position.x (1 / 20),
                        Util.lerp s.position.y s.net_position.y (1 / 20)⟩
           opacity := s.opacity.update (1 / 10)
           sides := if s.sides % 2 ≠ 0 then s.sides + 1 else s.sides
           needs_redraw := if s.needs_redraw then s.damaged else s.needs_redraw
           damaged := if s.needs_redraw then false else s.damaged
           cached_tex := some () }

/-- engine.rs Bullet::draw state mutations (lines 286-348): position eased then
advanced by velocity, opacity and scale eased with rate 0.3, the texture
cached. -/
def bulletDraw (bl : EBullet) : EBullet :=
  { bl with position := ⟨Util.lerp bl.position.x bl.net_position.x (1 / 20) + bl.velocity.x,
                         Util.lerp bl.position.y bl.net_position.y (1 / 20) + bl.velocity.y⟩
            opacity := bl.opacity.update (3 / 10)
            scale := bl.scale.update (3 / 10)
            cached_tex := some () }

/-- The per-entity frame mutation dispatch of World::draw_entities. -/
def drawTick (rot : ℚ) : EEntity → EEntity
  | .Tank t => .Tank (tankDraw rot t)
  | .Shape s => .Shape (shapeDraw s)
  | .Bullet bl => .Bullet (bulletDraw bl)

/-- engine.rs World::draw_entities effect on the store and the size scalar:
every cached entity is drawn once per frame; rots supplies the lerp_angle
oracle per key. -/
def frameTick (rots : Nat → ℚ) (w : World) : World :=
  { w with size := w.size.update (3 / 40)
           entities := fun k => (w.entities k).map (drawTick (rots k)) }

/-- An event observed by the entity store: a Census arrival or a frame tick. -/
inductive Ev where
  | censusEv (rand : ℚ) (c : Census)
  | frameEv (rots : Nat → ℚ)

/-- Apply one event to the world. -/
def runEvent (w : World) : Ev → World
  | .censusEv r c => censusStep r w c
  | .frameEv rots => frameTick rots w

/-- Apply a sequence of events to the world. -/
def run (w : World) (evs : List Ev) : World := evs.foldl runEvent w

/-- The event does not carry the id k in a census. -/
def Ev.avoids (k : Nat) : Ev → Prop
  | .censusEv _ c => c.contains_key k = false
  | .frameEv _ => True

/-- Key k is either purged from the store or mid-fade with opacity target 0. -/
def fadedOrGone (w : World) (k : Nat) : Prop :=
  match w.entities k with
  | none => True
  | some e => e.opacityTv = 0

end Recon

namespace Life

/-- Modelled from the spec: engine::PlayerState is referenced by lib.rs but its
declaration is not under src; the spec fixes the states Alive and
Dead(time_alive), time as a rational. -/
inductive PlayerState where
  | Alive
  | Dead (time_alive : ℚ)
deriving DecidableEq, Repr

/-- Modelled from the spec: the part of engine::GameState the lifecycle
handlers in lib.rs touch, the player state and the chat-open flag. -/
structure GameState where
  player_state : PlayerState
  chat_open : Bool
deriving DecidableEq, Repr

/-- Modelled from the spec: GameState::is_dead, true exactly in a Dead state. -/
def GameState.is_dead (s : GameState) : Bool :=
  match s.player_state with
  | .Dead _ => true
  | .Alive => false

/-- A command the client emits to the server. -/
inductive ClientCmd where
  | inputCmd (p : Proto.InputPacket)
  | messageCmd (s : String)
  | respawnCmd
deriving DecidableEq, Repr

/-- lib.rs 898-905, onmessage Death branch: record the Dead state with the
delivered time alive. -/
def onDeathPacket (s : GameState) (t : ℚ) : GameState :=
  { s with player_state := .Dead t }

/-- lib.rs 261-270, the per-frame outgoing packet: when the socket is open and
the player is not dead, the live input is sent, or a neutral all-false input
while the chat box is open; nothing at all is sent while dead. -/
def frameInputSend (ready_state : Nat) (s : GameState) (inp : Proto.Input) :
    Option Proto.InputPacket :=
  if ready_state = 1 ∧ s.is_dead = false then
    if s.chat_open = false then some (Proto.InputPacket.from_input inp)
    else some (Proto.InputPacket.from_input Proto.Input.new)
  else none

/-- lib.rs 1005-1033, the Enter arm of onkeyup: while Alive it toggles or sends
chat; while Dead it optimistically returns to Alive and emits a Respawn
command, before any server message. -/
def onEnterKeyUp (s : GameState) (chat_value : String) : GameState × List ClientCmd :=
  match s.player_state with
  | .Alive =>
    if s.chat_open then ({ s with chat_open := false }, [.messageCmd chat_value])
    else ({ s with chat_open := true }, [])
  | .Dead _ => ({ s with player_state := .Alive }, [.respawnCmd])

end Life

namespace Angle

open Real

/-- The js Math.atan2 convention: the argument of the point (x, y), in
(-pi, pi]. -/
noncomputable def atan2 (y x : ℝ) : ℝ := Complex.arg ⟨x, y⟩

/-- util.rs lerp_angle: both angles become unit vectors, the components are
lerped, and the angle is recovered through atan2. -/
noncomputable def lerp_angle (a b t : ℝ) : ℝ :=
  atan2 (Util.lerp (Real.sin a) (Real.sin b) t) (Util.lerp (Real.cos a) (Real.cos b) t)

/-- The interpolated plane vector built inside lerp_angle, as a complex point:
lerp_angle a b t is its argument. -/
noncomputable def lerpVec (a b t : ℝ) : ℂ :=
  ⟨Util.lerp (Real.cos a) (Real.cos b) t, Util.lerp (Real.sin a) (Real.sin b) t⟩

end Angle

namespace Recon

/-- The fade effect on the target projection, named for the proofs below. -/
def setFade (t : Targets) : Targets :=
  { t with opacity_tv := 0, scale_tv := t.scale_tv.map (fun _ => 2) }

/-- A concrete controlled tank with id 0. -/
def yTank0 : ETank :=
  { id := 0
    name := "me"
    position := ⟨0, 0⟩
    net_position := ⟨0, 0⟩
    net_rotation := 0
    velocity := ⟨0, 0⟩
    rotation := 0
    light := ⟨0, 0, 500, "rgba(252, 250, 157, 0.2)"⟩
    yourself := true
    mockup := 0
    health := Util.Scalar.new 1
    radius := 50
    damaged := false
    opacity := Util.Scalar.new 1
    message := "" }

/-- A concrete fully visible cached bullet. -/
def b0 : EBullet :=
  { id := 3
    position := ⟨6, 7⟩
    net_position := ⟨6, 7⟩
    velocity := ⟨1, 0⟩
    radius := 10
    opacity := Util.Scalar.new 1
    scale := Util.Scalar.new 1
    cached_tex := none
    color := "#f28900" }

/-- A concrete world caching the bullet b0 under key 3. -/
def wC1 : World :=
  { yourself := yTank0
    size := Util.Scalar.new 1
    level := Util.Scalar.new 1
    entities := fun k => if k = 3 then some (.Bullet b0) else none }

/-- A concrete census carrying no entities. -/
def cEmpty : Census := ⟨0, 100, 0, []⟩

/-- A concrete event sequence after the first absent census: one frame tick,
then another empty census. -/
def evsC1 : List Ev := [.frameEv (fun _ => 0), .censusEv 0 cEmpty]

/-- A cached shape mid-fade with rendered opacity 0.052, just above the purge
threshold 0.05. -/
def s052 : EShape :=
  { id := 1
    position := ⟨2, 2⟩
    net_position := ⟨2, 2⟩
    velocity := ⟨0, 0⟩
    rotation := 4
    sides := 12
    health := 1
    damaged := false
    opacity := ⟨13 / 250, 1⟩
    cached_tex := none
    needs_redraw := true
    radius := 20 }

/-- A concrete world caching the mid-fade shape s052 under key 1. -/
def wC2 : World :=
  { yourself := yTank0
    size := Util.Scalar.new 1
    level := Util.Scalar.new 1
    entities := fun k => if k = 1 then some (.Shape s052) else none }

/-- A concrete fully visible cached shape. -/
def sWit : EShape :=
  { id := 1
    position := ⟨0, 0⟩
    net_position := ⟨0, 0⟩
    velocity := ⟨0, 0⟩
    rotation := 0
    sides := 14
    health := 1
    damaged := false
    opacity := Util.Scalar.new 1
    cached_tex := none
    needs_redraw := true
    radius := 30 }

/-- A concrete census shape record for key 1. -/
def spkWit : ShapePacket := ⟨1, ⟨4, 5⟩, 7 / 10, 30⟩

/-- A concrete world caching the shape sWit under key 1. -/
def wC2wit : World :=
  { yourself := yTank0
    size := Util.Scalar.new 1
    level := Util.Scalar.new 1
    entities := fun k => if k = 1 then some (.Shape sWit) else none }

/-- A concrete census carrying the shape record spkWit under key 1. -/
def cShape : Census := ⟨1, 600, 2, [(1, .Shape spkWit)]⟩

/-- A concrete fully visible cached shape under key 2, for the kind-mismatch
case. -/
def s6 : EShape :=
  { id := 2
    position := ⟨8, 9⟩
    net_position := ⟨8, 9⟩
    velocity := ⟨0, 0⟩
    rotation := 17
    sides := 16
    health := 1
    damaged := false
    opacity := Util.Scalar.new 1
    cached_tex := none
    needs_redraw := true
    radius := 25 }

/-- A concrete world caching the shape s6 under key 2. -/
def wC6 : World :=
  { yourself := yTank0
    size := Util.Scalar.new 1
    level := Util.Scalar.new 1
    entities := fun k => if k = 2 then some (.Shape s6) else none }

/-- A concrete census tank record under key 2: the same id now reported as a
different kind. -/
def tp6 : TankPacket := ⟨2, ⟨1, 1⟩, 0, ⟨0, 0⟩, 1, 9 / 10, 40, "other", ""⟩

/-- A concrete census reporting key 2 as a tank. -/
def c6 : Census := ⟨1, 500, 2, [(2, .Tank tp6)]⟩

end Recon

namespace Life

/-- A concrete dead game state. -/
def deadState : GameState := ⟨.Dead 5, false⟩

/-- A concrete live input with keys held. -/
def someInput : Proto.Input := ⟨true, false, false, false, true, ⟨3, 4⟩⟩

end Life

section Helpers

open Recon

theorem purge_none_iff (c : Census) (k : Nat) (e : EEntity) :
    purgeEntity c k e = none ↔ e.opacityValue < 1 / 20 := by
  cases e <;> simp only [purgeEntity, EEntity.opacityValue] <;>
    split_ifs with h1 h2 <;> simp_all

theorem purge_mem (c : Census) (k : Nat) (e : EEntity)
    (hm : c.contains_key k = true) (hop : ¬ e.opacityValue < 1 / 20) :
    purgeEntity c k e = some e := by
  cases e <;> simp_all [purgeEntity, EEntity.opacityValue]

theorem purge_absent (c : Census) (k : Nat) (e : EEntity)
    (hm : c.contains_key k = false) (hop : ¬ e.opacityValue < 1 / 20) :
    purgeEntity c k e = some (fadeEntity e) := by
  cases e <;> simp_all [purgeEntity, fadeEntity, EEntity.opacityValue]

theorem fade_opacityTv (e : EEntity) : (fadeEntity e).opacityTv = 0 := by
  cases e <;> rfl

theorem fade_targets (e : EEntity) : (fadeEntity e).targets = setFade e.targets := by
  cases e <;> rfl

theorem setFade_idem (t : Targets) : setFade (setFade t) = setFade t := by
  rcases t with ⟨np, nr, h, o, sc⟩
  cases sc <;> rfl

theorem drawTick_opacityTv (rot : ℚ) (e : EEntity) :
    (drawTick rot e).opacityTv = e.opacityTv := by
  cases e <;> rfl

end Helpers

section FoldLemmas

open Recon

theorem applyEntity_entities_ne (yid : Nat) (r : ℚ) (w : World) (a : Nat) (pe : PEntity)
    (k : Nat) (hk : ¬ a = k) :
    (applyEntity yid r w (a, pe)).entities k = w.entities k := by
  simp only [applyEntity]
  have hka : ¬ k = a := fun h => hk h.symm
  by_cases hy : a = yid
  · simp only [hy, if_pos rfl]
    cases pe <;> rfl
  · simp only [if_neg hy]
    cases pe <;> rcases hw : w.entities a with _ | (t | s | bl) <;>
      simp [hw, storeInsert, hka]

theorem applyEntity_entities_eq (yid : Nat) (r : ℚ) (w : World) (k : Nat)
    (pe : PEntity) (hky : ¬ k = yid) :
    (applyEntity yid r w (k, pe)).entities k =
      some (keyApply yid r (w.entities k) k pe) := by
  simp only [applyEntity, if_neg hky]
  cases pe <;> rcases hw : w.entities k with _ | (t | s | bl) <;>
    simp [hw, keyApply, storeInsert]

theorem applyEntity_entities_yid (yid : Nat) (r : ℚ) (w : World) (pe : PEntity) (k : Nat) :
    (applyEntity yid r w (yid, pe)).entities k = w.entities k := by
  simp only [applyEntity, if_pos rfl]
  cases pe <;> rfl

theorem applyEntity_size (yid : Nat) (r : ℚ) (w : World) (p : Nat × PEntity) :
    (applyEntity yid r w p).size = w.size := by
  rcases p with ⟨a, pe⟩
  simp only [applyEntity]
  by_cases hy : a = yid <;>
    cases pe <;> rcases hw : w.entities a with _ | (t | s | bl) <;> simp [hy, hw]

theorem applyEntity_level (yid : Nat) (r : ℚ) (w : World) (p : Nat × PEntity) :
    (applyEntity yid r w p).level = w.level := by
  rcases p with ⟨a, pe⟩
  simp only [applyEntity]
  by_cases hy : a = yid <;>
    cases pe <;> rcases hw : w.entities a with _ | (t | s | bl) <;> simp [hy, hw]

theorem applyEntity_yourself_ne (yid : Nat) (r : ℚ) (w : World) (a : Nat) (pe : PEntity)
    (hp : ¬ a = yid) :
    (applyEntity yid r w (a, pe)).yourself = w.yourself := by
  simp only [applyEntity, if_neg hp]
  cases pe <;> rcases hw : w.entities a with _ | (t | s | bl) <;> simp [hw]

theorem applyEntity_yourself_yid (yid : Nat) (r : ℚ) (w : World) (pe : PEntity) :
    (applyEntity yid r w (yid, pe)).yourself =
      match pe with
      | .Tank t => yourselfApply w.yourself t
      | _ => w.yourself := by
  simp only [applyEntity, if_pos rfl]
  cases pe <;> rfl

theorem applyEntity_yourself_id (yid : Nat) (r : ℚ) (w : World) (p : Nat × PEntity) :
    (applyEntity yid r w p).yourself.id = w.yourself.id := by
  rcases p with ⟨a, pe⟩
  by_cases hp : a = yid
  · subst hp
    rw [applyEntity_yourself_yid]
    cases pe <;> simp [yourselfApply]
  · rw [applyEntity_yourself_ne _ _ _ _ _ hp]

theorem lookupKey_eq_none (k : Nat) (l : List (Nat × PEntity))
    (h : k ∉ l.map Prod.fst) : lookupKey k l = none := by
  induction l with
  | nil => rfl
  | cons p t ih =>
    rcases p with ⟨a, pe⟩
    simp only [List.map_cons, List.mem_cons] at h
    push_neg at h
    have hak : ¬ a = k := fun hh => h.1 hh.symm
    simp only [lookupKey, if_neg hak]
    exact ih h.2

theorem fold_entities_none (yid : Nat) (r : ℚ) (l : List (Nat × PEntity)) (w : World)
    (k : Nat) (hl : lookupKey k l = none) :
    (l.foldl (applyEntity yid r) w).entities k = w.entities k := by
  induction l generalizing w with
  | nil => rfl
  | cons p t ih =>
    rcases p with ⟨a, pe⟩
    simp only [lookupKey] at hl
    by_cases hak : a = k
    · simp [hak] at hl
    · rw [if_neg hak] at hl
      rw [List.foldl_cons, ih _ hl, applyEntity_entities_ne _ _ _ _ _ _ hak]

theorem nodupKeys_head (a : Nat) (pe : PEntity) (t : List (Nat × PEntity))
    (hnd : nodupKeys ((a, pe) :: t)) : a ∉ t.map Prod.fst := by
  have h2 : (a :: t.map Prod.fst).Nodup := by
    have h1 : nodupKeys ((a, pe) :: t) = (a :: t.map Prod.fst).Nodup := by
      rw [nodupKeys, List.map_cons]
    rw [h1] at hnd
    exact hnd
  exact (List.nodup_cons.mp h2).1

theorem nodupKeys_tail (a : Nat) (pe : PEntity) (t : List (Nat × PEntity))
    (hnd : nodupKeys ((a, pe) :: t)) : nodupKeys t := by
  have h2 : (a :: t.map Prod.fst).Nodup := by
    have h1 : nodupKeys ((a, pe) :: t) = (a :: t.map Prod.fst).Nodup := by
      rw [nodupKeys, List.map_cons]
    rw [h1] at hnd
    exact hnd
  exact (List.nodup_cons.mp h2).2

theorem fold_entities_char (yid : Nat) (r : ℚ) (l : List (Nat × PEntity)) (w : World)
    (k : Nat) (hnd : nodupKeys l) :
    (l.foldl (applyEntity yid r) w).entities k =
      match lookupKey k l with
      | none => w.entities k
      | some pe =>
        if k = yid then w.entities k else some (keyApply yid r (w.entities k) k pe) := by
  induction l generalizing w with
  | nil => rfl
  | cons p t ih =>
    rcases p with ⟨a, pe0⟩
    have hnd1 : a ∉ t.map Prod.fst := nodupKeys_head a pe0 t hnd
    have hnd2 : nodupKeys t := nodupKeys_tail a pe0 t hnd
    by_cases hak : a = k
    · subst hak
      have hnone : lookupKey a t = none := lookupKey_eq_none a t hnd1
      have hla : lookupKey a ((a, pe0) :: t) = some pe0 := by simp [lookupKey]
      rw [List.foldl_cons, fold_entities_none _ _ _ _ _ hnone, hla]
      by_cases hy : a = yid
      · subst hy
        rw [applyEntity_entities_yid]
        simp
      · rw [applyEntity_entities_eq _ _ _ _ _ hy]
        simp [hy]
    · have hla : lookupKey k ((a, pe0) :: t) = lookupKey k t := by
        simp [lookupKey, hak]
      have hw2 : (applyEntity yid r w (a, pe0)).entities k = w.entities k :=
        applyEntity_entities_ne _ _ _ _ _ _ hak
      rw [List.foldl_cons, ih _ hnd2, hla]
      cases hlt : lookupKey k t <;> simp [hw2]

theorem fold_size (yid : Nat) (r : ℚ) (l : List (Nat × PEntity)) (w : World) :
    (l.foldl (applyEntity yid r) w).size = w.size := by
  induction l generalizing w with
  | nil => rfl
  | cons p t ih => rw [List.foldl_cons, ih, applyEntity_size]

theorem fold_level (yid : Nat) (r : ℚ) (l : List (Nat × PEntity)) (w : World) :
    (l.foldl (applyEntity yid r) w).level = w.level := by
  induction l generalizing w with
  | nil => rfl
  | cons p t ih => rw [List.foldl_cons, ih, applyEntity_level]

theorem fold_yourself_id (yid : Nat) (r : ℚ) (l : List (Nat × PEntity)) (w : World) :
    (l.foldl (applyEntity yid r) w).yourself.id = w.yourself.id := by
  induction l generalizing w with
  | nil => rfl
  | cons p t ih => rw [List.foldl_cons, ih, applyEntity_yourself_id]

theorem fold_yourself_none (yid : Nat) (r : ℚ) (l : List (Nat × PEntity)) (w : World)
    (hl : lookupKey yid l = none) :
    (l.foldl (applyEntity yid r) w).yourself = w.yourself := by
  induction l generalizing w with
  | nil => rfl
  | cons p t ih =>
    rcases p with ⟨a, pe⟩
    simp only [lookupKey] at hl
    by_cases hay : a = yid
    · simp [hay] at hl
    · rw [if_neg hay] at hl
      rw [List.foldl_cons, ih _ hl, applyEntity_yourself_ne _ _ _ _ _ hay]

theorem fold_yourself_char (yid : Nat) (r : ℚ) (l : List (Nat × PEntity)) (w : World)
    (hnd : nodupKeys l) :
    (l.foldl (applyEntity yid r) w).yourself =
      match lookupKey yid l with
      | some (.Tank t) => yourselfApply w.yourself t
      | _ => w.yourself := by
  induction l generalizing w with
  | nil => rfl
  | cons p t ih =>
    rcases p with ⟨a, pe0⟩
    have hnd1 : a ∉ t.map Prod.fst := nodupKeys_head a pe0 t hnd
    have hnd2 : nodupKeys t := nodupKeys_tail a pe0 t hnd
    by_cases hay : a = yid
    · subst hay
      have hnone : lookupKey a t = none := lookupKey_eq_none a t hnd1
      have hla : lookupKey a ((a, pe0) :: t) = some pe0 := by simp [lookupKey]
      rw [List.foldl_cons, fold_yourself_none _ _ _ _ hnone, hla, applyEntity_yourself_yid]
      cases pe0 <;> rfl
    · have hla : lookupKey yid ((a, pe0) :: t) = lookupKey yid t := by
        simp [lookupKey, hay]
      have hw2 : (applyEntity yid r w (a, pe0)).yourself = w.yourself :=
        applyEntity_yourself_ne _ _ _ _ _ hay
      rw [List.foldl_cons, ih _ hnd2, hla]
      cases hlt : lookupKey yid t with
      | none => simp [hw2]
      | some pe => cases pe <;> simp [hw2]

end FoldLemmas

section StepLemmas

open Recon

theorem censusStep_entities (r : ℚ) (w : World) (c : Census) (k : Nat)
    (hnd : nodupKeys c.entities) :
    (censusStep r w c).entities k =
      match lookupKey k c.entities with
      | none => (w.entities k).bind (purgeEntity c k)
      | some pe =>
        if k = w.yourself.id then (w.entities k).bind (purgeEntity c k)
        else some (keyApply w.yourself.id r ((w.entities k).bind (purgeEntity c k)) k pe) := by
  have h := fold_entities_char w.yourself.id r c.entities
    { w with size := { w.size with tv := (c.arena_size : ℚ) }
             level := { w.level with tv := c.level }
             entities := fun k2 => (w.entities k2).bind (purgeEntity c k2) } k hnd
  exact h

theorem censusStep_entities_absent (r : ℚ) (w : World) (c : Census) (k : Nat)
    (habs : lookupKey k c.entities = none) :
    (censusStep r w c).entities k = (w.entities k).bind (purgeEntity c k) := by
  have h := fold_entities_none w.yourself.id r c.entities
    { w with size := { w.size with tv := (c.arena_size : ℚ) }
             level := { w.level with tv := c.level }
             entities := fun k2 => (w.entities k2).bind (purgeEntity c k2) } k habs
  exact h

theorem censusStep_size_tv (r : ℚ) (w : World) (c : Census) :
    (censusStep r w c).size.tv = (c.arena_size : ℚ) := by
  unfold censusStep
  rw [fold_size]

theorem censusStep_level_tv (r : ℚ) (w : World) (c : Census) :
    (censusStep r w c).level.tv = c.level := by
  unfold censusStep
  rw [fold_level]

theorem censusStep_yourself_id (r : ℚ) (w : World) (c : Census) :
    (censusStep r w c).yourself.id = w.yourself.id := by
  unfold censusStep
  rw [fold_yourself_id]

theorem censusStep_yourself (r : ℚ) (w : World) (c : Census)
    (hnd : nodupKeys c.entities) :
    (censusStep r w c).yourself =
      match lookupKey w.yourself.id c.entities with
      | some (.Tank t) => yourselfApply w.yourself t
      | _ => w.yourself := by
  have h := fold_yourself_char w.yourself.id r c.entities
    { w with size := { w.size with tv := (c.arena_size : ℚ) }
             level := { w.level with tv := c.level }
             entities := fun k2 => (w.entities k2).bind (purgeEntity c k2) } hnd
  exact h

theorem yourselfApply_idem (y : ETank) (t : TankPacket) :
    yourselfApply (yourselfApply y t) t = yourselfApply y t := by
  simp [yourselfApply]

theorem contains_of_lookup (c : Census) (k : Nat) (pe : PEntity)
    (h : lookupKey k c.entities = some pe) : c.contains_key k = true := by
  simp [Census.contains_key, h]

theorem lookup_of_not_contains (c : Census) (k : Nat)
    (h : c.contains_key k = false) : lookupKey k c.entities = none := by
  rcases hl : lookupKey k c.entities with _ | pe
  · rfl
  · simp [Census.contains_key, hl] at h

theorem keyApply_opacity (yid : Nat) (r : ℚ) (cur : Option EEntity) (k : Nat)
    (pe : PEntity) (hcur : ∀ x, cur = some x → ¬ x.opacityValue < 1 / 20) :
    ¬ (keyApply yid r cur k pe).opacityValue < 1 / 20 := by
  cases pe <;> rcases cur with _ | (t | s | bl) <;>
    simp_all [keyApply, EEntity.opacityValue, tankApply, shapeApply, bulletApply,
      newTank, newShape, newBullet, Util.Scalar.new] <;> norm_num

theorem keyApply_targets_stable (yid : Nat) (r1 r2 : ℚ) (cur : Option EEntity) (k : Nat)
    (pe : PEntity) :
    (keyApply yid r2 (some (keyApply yid r1 cur k pe)) k pe).targets =
      (keyApply yid r1 cur k pe).targets := by
  cases pe <;> rcases cur with _ | (t | s | bl) <;>
    simp [keyApply, EEntity.targets, tankApply, shapeApply, bulletApply,
      newTank, newShape, newBullet, Util.Scalar.new]

end StepLemmas

section RunLemmas

open Recon

theorem runEvent_faded (k : Nat) (w : World) (ev : Ev)
    (hQ : fadedOrGone w k) (hav : ev.avoids k) :
    fadedOrGone (runEvent w ev) k := by
  cases ev with
  | frameEv rots =>
    simp only [runEvent, frameTick, fadedOrGone] at *
    rcases hw : w.entities k with _ | e
    · simp [hw]
    · rw [hw] at hQ
      simp [hw, drawTick_opacityTv]
      exact hQ
  | censusEv r c =>
    have habs : lookupKey k c.entities = none := lookup_of_not_contains c k hav
    simp only [runEvent, fadedOrGone]
    rw [censusStep_entities_absent _ _ _ _ habs]
    rcases hw : w.entities k with _ | e
    · simp
    · by_cases hop : e.opacityValue < 1 / 20
      · simp [(purge_none_iff c k e).mpr hop]
      · simp only [Option.some_bind, purge_absent c k e hav hop]
        exact fade_opacityTv e

theorem run_faded (k : Nat) (w : World) (evs : List Ev)
    (hQ : fadedOrGone w k) (hevs : ∀ ev ∈ evs, ev.avoids k) :
    fadedOrGone (run w evs) k := by
  induction evs generalizing w with
  | nil => exact hQ
  | cons ev t ih =>
    have h1 : fadedOrGone (runEvent w ev) k :=
      runEvent_faded k w ev hQ (hevs ev (List.mem_cons_self ev t))
    exact ih (runEvent w ev) h1 (fun e he => hevs e (List.mem_cons_of_mem ev he))

theorem runEvent_gone (k : Nat) (w : World) (ev : Ev)
    (hg : w.entities k = none) (hav : ev.avoids k) :
    (runEvent w ev).entities k = none := by
  cases ev with
  | frameEv rots => simp [runEvent, frameTick, hg]
  | censusEv r c =>
    have habs : lookupKey k c.entities = none := lookup_of_not_contains c k hav
    rw [runEvent, censusStep_entities_absent _ _ _ _ habs, hg]
    rfl

theorem run_gone (k : Nat) (w : World) (evs : List Ev)
    (hg : w.entities k = none) (hevs : ∀ ev ∈ evs, ev.avoids k) :
    (run w evs).entities k = none := by
  induction evs generalizing w with
  | nil => exact hg
  | cons ev t ih =>
    have h1 : (runEvent w ev).entities k = none :=
      runEvent_gone k w ev hg (hevs ev (List.mem_cons_self ev t))
    exact ih (runEvent w ev) h1 (fun e he => hevs e (List.mem_cons_of_mem ev he))

end RunLemmas

/-- C1: In the Census purge pass a cached entity is deleted exactly when its
rendered opacity is below 0.05, regardless of census membership; a retained
entity absent from the snapshot gets opacity target 0 (and scale target 2.0
for a bullet) and is kept; across any sequence of later censuses not carrying
the id (and frame ticks), the opacity target stays 0 until the entity is
deleted, and once deleted the id never reappears. -/
theorem census_fadeout_monotone (w : Recon.World) (k : Nat) (e : Recon.EEntity) (rand : ℚ)
    (c : Recon.Census) (evs : List Recon.Ev)
    (hmem : w.entities k = some e)
    (habs : c.contains_key k = false)
    (hevs : ∀ ev ∈ evs, ev.avoids k) :
    (∀ c2 : Recon.Census, ∀ k2 : Nat,
        Recon.purgeEntity c2 k2 e = none ↔ e.opacityValue < 1 / 20) ∧
    (¬ e.opacityValue < 1 / 20 →
      Recon.purgeEntity c k e = some (Recon.fadeEntity e) ∧
      (Recon.fadeEntity e).opacityTv = 0 ∧
      ∀ bl, e = .Bullet bl → ∃ bl2, Recon.fadeEntity e = .Bullet bl2 ∧ bl2.scale.tv = 2) ∧
    Recon.fadedOrGone (Recon.run (Recon.censusStep rand w c) evs) k ∧
    (∀ u : Recon.World, u.entities k = none → (Recon.run u evs).entities k = none) := by
  refine ⟨fun c2 k2 => purge_none_iff c2 k2 e, ?_, ?_, fun u hu => run_gone k u evs hu hevs⟩
  · intro hop
    refine ⟨purge_absent c k e habs hop, fade_opacityTv e, ?_⟩
    intro bl hbl
    subst hbl
    exact ⟨_, rfl, rfl⟩
  · have h0 : Recon.fadedOrGone (Recon.censusStep rand w c) k := by
      simp only [Recon.fadedOrGone]
      rw [censusStep_entities_absent _ _ _ _ (lookup_of_not_contains c k habs), hmem]
      by_cases hop : e.opacityValue < 1 / 20
      · simp [(purge_none_iff c k e).mpr hop]
      · simp only [Option.some_bind, purge_absent c k e habs hop]
        exact fade_opacityTv e
    exact run_faded k _ evs h0 hevs

/-- Witness for C1: a concrete cached bullet under key 3, an empty census, a
frame tick and another empty census. -/
theorem census_fadeout_monotone_witness :
    Recon.wC1.entities 3 = some (.Bullet Recon.b0) ∧
    Recon.cEmpty.contains_key 3 = false ∧
    Recon.fadedOrGone (Recon.run (Recon.censusStep 0 Recon.wC1 Recon.cEmpty) Recon.evsC1) 3 :=
  ⟨by decide, by decide,
    (census_fadeout_monotone Recon.wC1 3 (.Bullet Recon.b0) 0 Recon.cEmpty Recon.evsC1
      (by decide) (by decide)
      (by
        intro ev hev
        rcases List.mem_cons.mp hev with rfl | hev2
        · exact trivial
        · rcases List.mem_cons.mp hev2 with rfl | hev3
          · exact rfl
          · exact absurd hev3 (List.not_mem_nil ev))).2.2.1⟩

section PurgeSomeLemmas

open Recon

theorem purge_some_mem_eq (c : Census) (k : Nat) (e x : EEntity)
    (h : purgeEntity c k e = some x) (hct : c.contains_key k = true) :
    x = e ∧ ¬ e.opacityValue < 1 / 20 := by
  by_cases hop : e.opacityValue < 1 / 20
  · rw [(purge_none_iff c k e).mpr hop] at h
    exact absurd h (by simp)
  · rw [purge_mem c k e hct hop] at h
    exact ⟨(Option.some_inj.mp h).symm, hop⟩

theorem purge_some_absent_eq (c : Census) (k : Nat) (e x : EEntity)
    (h : purgeEntity c k e = some x) (hcf : c.contains_key k = false) :
    x = fadeEntity e ∧ ¬ e.opacityValue < 1 / 20 := by
  by_cases hop : e.opacityValue < 1 / 20
  · rw [(purge_none_iff c k e).mpr hop] at h
    exact absurd h (by simp)
  · rw [purge_absent c k e hcf hop] at h
    exact ⟨(Option.some_inj.mp h).symm, hop⟩

end PurgeSomeLemmas

section StepCaseLemmas

open Recon

theorem censusStep_entities_mem (r : ℚ) (w : World) (c : Census) (k : Nat) (pe : PEntity)
    (hnd : nodupKeys c.entities) (hl : lookupKey k c.entities = some pe) :
    (censusStep r w c).entities k =
      if k = w.yourself.id then (w.entities k).bind (purgeEntity c k)
      else some (keyApply w.yourself.id r ((w.entities k).bind (purgeEntity c k)) k pe) := by
  rw [censusStep_entities r w c k hnd, hl]

end StepCaseLemmas

/-- C2 counterexample: reconciling the same census twice is not target-neutral
as claimed. The world wC2 caches a shape at key 1 with rendered opacity 0.052
and the census is empty: the first application fades it (its rendered opacity
drops to 0.0468), the second application purges it, so the target projection
at key 1 goes from present to absent between one and two applications. -/
theorem census_idempotence_cex :
    (((Recon.censusStep 0 (Recon.censusStep 0 Recon.wC2 Recon.cEmpty) Recon.cEmpty).entities 1).map
        Recon.EEntity.targets) = none ∧
    (((Recon.censusStep 0 Recon.wC2 Recon.cEmpty).entities 1).map
        Recon.EEntity.targets).isSome = true := by
  norm_num [Recon.censusStep, Recon.purgeEntity, Recon.Census.contains_key, Recon.lookupKey,
    Recon.wC2, Recon.cEmpty, Recon.s052, Util.Scalar.set_update, Util.Scalar.update, Util.lerp]

/-- C2 (amended): applying the reconciliation twice with the same census keeps
the arena size target, the level target and the controlled tank identical to
one application, and every entity still present after the second application
has exactly the targets it had after the first; the second application can
however purge an entity whose rendered opacity the first fade step pushed
below 0.05, so target preservation holds for surviving entities, not for the
whole store. -/
theorem census_second_apply_targets (w : Recon.World) (c : Recon.Census)
    (r1 r2 : ℚ) (k : Nat) (e2 : Recon.EEntity)
    (hnd : Recon.nodupKeys c.entities)
    (h2 : (Recon.censusStep r2 (Recon.censusStep r1 w c) c).entities k = some e2) :
    (Recon.censusStep r2 (Recon.censusStep r1 w c) c).size.tv
        = (Recon.censusStep r1 w c).size.tv ∧
    (Recon.censusStep r2 (Recon.censusStep r1 w c) c).level.tv
        = (Recon.censusStep r1 w c).level.tv ∧
    (Recon.censusStep r2 (Recon.censusStep r1 w c) c).yourself
        = (Recon.censusStep r1 w c).yourself ∧
    ∃ e1, (Recon.censusStep r1 w c).entities k = some e1 ∧ e2.targets = e1.targets := by
  have hid : (Recon.censusStep r1 w c).yourself.id = w.yourself.id :=
    censusStep_yourself_id r1 w c
  have hy1 := censusStep_yourself r1 w c hnd
  refine ⟨?_, ?_, ?_, ?_⟩
  · rw [censusStep_size_tv, censusStep_size_tv]
  · rw [censusStep_level_tv, censusStep_level_tv]
  · rw [censusStep_yourself r2 (Recon.censusStep r1 w c) c hnd, hid]
    cases hl : Recon.lookupKey w.yourself.id c.entities with
    | none => rfl
    | some pe =>
      cases pe with
      | Tank t =>
        have hy1v : (Recon.censusStep r1 w c).yourself = Recon.yourselfApply w.yourself t := by
          rw [hy1, hl]
        rw [hy1v]
        exact yourselfApply_idem w.yourself t
      | Shape s => rfl
      | Bullet bl => rfl
  · cases hl : Recon.lookupKey k c.entities with
    | none =>
      rw [censusStep_entities_absent r2 (Recon.censusStep r1 w c) c k hl] at h2
      have hcf : c.contains_key k = false := by
        simp [Recon.Census.contains_key, hl]
      rw [censusStep_entities_absent r1 w c k hl] at h2 ⊢
      rcases Option.bind_eq_some.mp h2 with ⟨e1, he1, hp⟩
      rcases Option.bind_eq_some.mp he1 with ⟨e0, he0, hp0⟩
      rcases purge_some_absent_eq c k e0 e1 hp0 hcf with ⟨hfe1, hop0⟩
      rcases purge_some_absent_eq c k e1 e2 hp hcf with ⟨hfe2, hop1⟩
      refine ⟨e1, he1, ?_⟩
      rw [hfe2, fade_targets, hfe1, fade_targets, setFade_idem]
    | some pe =>
      have hct : c.contains_key k = true := contains_of_lookup c k pe hl
      rw [censusStep_entities_mem r2 (Recon.censusStep r1 w c) c k pe hnd hl, hid] at h2
      rw [censusStep_entities_mem r1 w c k pe hnd hl]
      by_cases hky : k = w.yourself.id
      · rw [if_pos hky] at h2 ⊢
        rw [censusStep_entities_mem r1 w c k pe hnd hl, if_pos hky] at h2
        rcases Option.bind_eq_some.mp h2 with ⟨e1, he1, hp⟩
        rcases purge_some_mem_eq c k e1 e2 hp hct with ⟨hee, _⟩
        exact ⟨e1, he1, by rw [hee]⟩
      · rw [if_neg hky] at h2 ⊢
        rw [censusStep_entities_mem r1 w c k pe hnd hl, if_neg hky] at h2
        have hz : ∀ x, ((w.entities k).bind (Recon.purgeEntity c k)) = some x →
            ¬ x.opacityValue < 1 / 20 := by
          intro x hx
          rcases Option.bind_eq_some.mp hx with ⟨e0, _, hp0⟩
          rcases purge_some_mem_eq c k e0 x hp0 hct with ⟨hxe, hope⟩
          rw [hxe]
          exact hope
        have hzop : ¬ (Recon.keyApply w.yourself.id r1
            ((w.entities k).bind (Recon.purgeEntity c k)) k pe).opacityValue < 1 / 20 :=
          keyApply_opacity w.yourself.id r1 _ k pe hz
        rw [Option.some_bind, purge_mem c k _ hct hzop] at h2
        refine ⟨_, rfl, ?_⟩
        have he2 : e2 = Recon.keyApply w.yourself.id r2
            (some (Recon.keyApply w.yourself.id r1
              ((w.entities k).bind (Recon.purgeEntity c k)) k pe)) k pe :=
          (Option.some_inj.mp h2).symm
        rw [he2]
        exact keyApply_targets_stable w.yourself.id r1 r2 _ k pe

/-- Witness for C2 (amended): a concrete cached shape updated twice by the
same census record. -/
theorem census_second_apply_targets_witness :
    Recon.nodupKeys Recon.cShape.entities ∧
    (∃ e1, (Recon.censusStep 0 Recon.wC2wit Recon.cShape).entities 1 = some e1 ∧
      (Recon.EEntity.Shape
          (Recon.shapeApply (Recon.shapeApply Recon.sWit Recon.spkWit) Recon.spkWit)).targets
        = e1.targets) :=
  ⟨by simp [Recon.nodupKeys, Recon.cShape],
    (census_second_apply_targets Recon.wC2wit Recon.cShape 0 0 1
      (.Shape (Recon.shapeApply (Recon.shapeApply Recon.sWit Recon.spkWit) Recon.spkWit))
      (by simp [Recon.nodupKeys, Recon.cShape])
      (by
        norm_num [Recon.censusStep, Recon.applyEntity, Recon.purgeEntity,
          Recon.Census.contains_key, Recon.lookupKey, Recon.wC2wit, Recon.cShape,
          Recon.spkWit, Recon.sWit, Recon.yTank0, Recon.shapeApply, Recon.keyApply,
          Recon.storeInsert, Util.Scalar.set_update, Util.Scalar.update, Util.Scalar.new,
          Util.lerp])).2.2.2⟩

theorem keyApply_mismatch (yid : Nat) (r : ℚ) (e : Recon.EEntity) (k : Nat)
    (pe : Recon.PEntity) (hkind : e.kindTag ≠ pe.kindTag) :
    Recon.keyApply yid r (some e) k pe = e := by
  cases pe <;> cases e <;> first
    | rfl
    | exact absurd rfl hkind

/-- C6 counterexample: key 2 is cached as a Shape and the census reports it as
a Tank; the reconciler neither removes the cached shape nor inserts a tank --
the wildcard update arm drops the update and the shape survives unchanged, so
the cached kind after reconciliation is still Shape, not the snapshot kind. -/
theorem census_kind_mismatch_cex :
    (Recon.censusStep 0 Recon.wC6 Recon.c6).entities 2 = some (.Shape Recon.s6) ∧
    ((Recon.censusStep 0 Recon.wC6 Recon.c6).entities 2).map Recon.EEntity.kindTag ≠
      some (Recon.PEntity.kindTag (.Tank Recon.tp6)) := by
  norm_num [Recon.censusStep, Recon.applyEntity, Recon.purgeEntity,
    Recon.Census.contains_key, Recon.lookupKey, Recon.wC6, Recon.c6, Recon.s6, Recon.tp6,
    Recon.yTank0, Recon.EEntity.kindTag, Recon.PEntity.kindTag, Util.Scalar.new]

/-- C6 (amended): when an id cached as one kind appears in the census as a
different kind (and the cached entity is still visible, rendered opacity at
least 0.05), the reconciler leaves the cached entity exactly as it was: the
wildcard update arms drop the update, with no removal, no cross-kind
mutation, and no insertion of the snapshot kind. -/
theorem census_kind_mismatch_keeps_cached (w : Recon.World) (k : Nat) (e : Recon.EEntity)
    (pe : Recon.PEntity) (r : ℚ) (c : Recon.Census)
    (hnd : Recon.nodupKeys c.entities)
    (hl : Recon.lookupKey k c.entities = some pe)
    (hmem : w.entities k = some e)
    (hky : ¬ k = w.yourself.id)
    (hkind : e.kindTag ≠ pe.kindTag)
    (hop : ¬ e.opacityValue < 1 / 20) :
    (Recon.censusStep r w c).entities k = some e := by
  have hct := contains_of_lookup c k pe hl
  rw [censusStep_entities_mem r w c k pe hnd hl, if_neg hky, hmem, Option.some_bind,
    purge_mem c k e hct hop, keyApply_mismatch w.yourself.id r e k pe hkind]

/-- Witness for C6 (amended): the concrete shape cached under key 2 survives a
census that reports key 2 as a tank. -/
theorem census_kind_mismatch_keeps_cached_witness :
    Recon.wC6.entities 2 = some (.Shape Recon.s6) ∧
    (Recon.censusStep 0 Recon.wC6 Recon.c6).entities 2 = some (.Shape Recon.s6) :=
  ⟨by decide,
   census_kind_mismatch_keeps_cached Recon.wC6 2 (.Shape Recon.s6) (.Tank Recon.tp6) 0 Recon.c6
     (by simp [Recon.nodupKeys, Recon.c6])
     (by simp [Recon.lookupKey, Recon.c6])
     (by decide)
     (by decide)
     (by decide)
     (by norm_num [Recon.EEntity.opacityValue, Recon.s6, Util.Scalar.new])⟩

/-- C3: decoding the hand-built census buffer (entity_count 1, arena_size 1000,
level 2.5, one Tank record id 7, position (10, -5), rotation 0.0, velocity
(0, 0), mockup 0, health 0.8, radius 50, name X, empty message) yields exactly
those header fields and exactly one entity keyed 7 with those field values
(floats as their f32 bit patterns, 2.5 = 0x40200000, 0.8 = 0x3F4CCCCD); and a
Tank record whose encoded health denotes a negative value decodes with health
clamped to 0, both on the concrete negative-health buffer and for every
negative bit pattern h fed to the decoder clamp. -/
theorem census_decode_single_tank (h : Nat) (hneg : Wire.f32IsNegative h = true) :
    Wire.Census.decode Wire.c3Buf =
      ⟨1, 1000, 0x40200000,
        [(7, .Tank ⟨7, ⟨10, -5⟩, 0, ⟨0, 0⟩, 0, 0x3F4CCCCD, 50, "X", ""⟩)]⟩ ∧
    Wire.Census.decode Wire.c3BufNeg =
      ⟨1, 1000, 0x40200000,
        [(7, .Tank ⟨7, ⟨10, -5⟩, 0, ⟨0, 0⟩, 0, 0, 50, "X", ""⟩)]⟩ ∧
    Wire.clampHealth h = 0 := by
  refine ⟨by decide, by decide, ?_⟩
  rw [Wire.clampHealth, if_pos hneg]

/-- Witness for C3: the bit pattern of -1.0f32 is negative and clamps to 0. -/
theorem census_decode_single_tank_witness :
    Wire.f32IsNegative 0xBF800000 = true ∧ Wire.clampHealth 0xBF800000 = 0 :=
  ⟨by decide, (census_decode_single_tank 0xBF800000 (by decide)).2.2⟩

/-- C10: the Shape arm of Census::decode stores health exactly as decoded, with
no non-negativity clamp: the concrete buffer carrying a Shape with health bits
0xBF800000 (-1.0, a negative value) decodes to a ShapePacket holding that
negative pattern unchanged, while the Tank buffer carrying the same bits
decodes with health clamped to 0. -/
theorem census_decode_shape_health_passthrough :
    Wire.Census.decode Wire.c10ShapeBuf =
      ⟨1, 200, 0, [(5, .Shape ⟨5, ⟨3, 4⟩, 0xBF800000, 20⟩)]⟩ ∧
    Wire.f32IsNegative 0xBF800000 = true ∧
    Wire.Census.decode Wire.c10TankBuf =
      ⟨1, 200, 0, [(5, .Tank ⟨5, ⟨3, 4⟩, 0, ⟨0, 0⟩, 0, 0, 20, "", ""⟩)]⟩ := by
  refine ⟨by decide, by decide, by decide⟩

/-- C4: for every combination of the five input flags, the encoded flags byte
carries W on bit 4, A on bit 3, S on bit 2, D on bit 1 and the primary action
on bit 0, and extracting those bits recovers exactly the original flags; the
flags byte is the second byte of the encoded Input packet. -/
theorem input_flag_roundtrip :
    (∀ p : Proto.InputPacket, p.encode.getD 1 0 = p.flagByte) ∧
    (∀ w a s d m : Bool,
      Proto.decodeFlagByte (Proto.InputPacket.flagByte ⟨w, a, s, d, m, ⟨0, 0⟩⟩)
        = (w, a, s, d, m)) :=
  ⟨fun p => rfl, by decide⟩

/-- C7: on an unknown entity-kind discriminant the Census decoder adds no
entity for the record and keeps going (the session stays up and later records
are still decoded, as the clean-skip buffer shows), but it advances the cursor
by exactly one u32 past the kind byte, 5 bytes in total, with no defined
skip-width: on the desync buffer, whose unknown record has a 14-byte body, the
valid Tank record with id 7 that follows is lost and the remainder of the
buffer is parsed misaligned into a garbage Shape entity. -/
theorem census_unknown_kind_desync (b : Wire.SPB) (hk : 3 ≤ b.byteAt b.cursor) :
    Wire.decodeEntityRecord b = (none, { b with cursor := b.cursor + 5 }) ∧
    Wire.Census.decode Wire.c7SkipBuf =
      ⟨2, 100, 0, [(9, .Shape ⟨9, ⟨1, 2⟩, 0x3F800000, 20⟩)]⟩ ∧
    (Wire.Census.decode Wire.c7DesyncBuf).entities =
      [(16775936, .Shape ⟨16775936, ⟨-32768, 5183⟩, 458752, 0⟩)] ∧
    (Wire.Census.decode Wire.c7DesyncBuf).entities.all (fun p => p.1 != 7) = true := by
  refine ⟨?_, by decide, by decide, by decide⟩
  obtain ⟨m, hm⟩ : ∃ m, b.byteAt b.cursor = m + 3 :=
    ⟨b.byteAt b.cursor - 3, (Nat.sub_add_cancel hk).symm⟩
  simp only [Wire.decodeEntityRecord, Wire.SPB.get_u8]
  rw [hm]
  rfl

/-- Witness for C7: a buffer whose next byte is the unknown kind 3 advances
the cursor from 0 to 5 and yields no entity. -/
theorem census_unknown_kind_desync_witness :
    3 ≤ (Wire.SPB.mk [3, 9, 9, 9, 9, 0] 0).byteAt 0 ∧
    Wire.decodeEntityRecord (Wire.SPB.mk [3, 9, 9, 9, 9, 0] 0) =
      (none, Wire.SPB.mk [3, 9, 9, 9, 9, 0] 5) :=
  ⟨by decide,
    (census_unknown_kind_desync (Wire.SPB.mk [3, 9, 9, 9, 9, 0] 0) (by decide)).1⟩

/-- C5 counterexample: while Dead with the socket open and chat closed, the
per-frame sender emits nothing at all, not the neutral all-false Input the
claim asserts. -/
theorem dead_input_suppression_cex :
    Life.frameInputSend 1 Life.deadState Life.someInput = none ∧
    ¬ Life.frameInputSend 1 Life.deadState Life.someInput =
        some (Proto.InputPacket.from_input Proto.Input.new) := by
  refine ⟨by decide, by decide⟩

/-- C5 (amended): a Death message carrying time t moves any state to Dead t;
while Dead no Input command is sent at all each tick (outgoing input is
suppressed entirely; the neutral all-false Input is sent only while the chat
box is open and the player is alive); a local Enter key press while Dead
immediately sets the state back to Alive, before any server message, and
simultaneously emits a Respawn command. -/
theorem player_lifecycle (s : Life.GameState) (t : ℚ) (inp : Proto.Input)
    (rs : Nat) (cv : String) (hd : s.is_dead = true) :
    (∀ s2 : Life.GameState, (Life.onDeathPacket s2 t).player_state = .Dead t) ∧
    Life.frameInputSend rs s inp = none ∧
    (Life.onEnterKeyUp s cv).1.player_state = .Alive ∧
    (Life.onEnterKeyUp s cv).2 = [.respawnCmd] ∧
    (∀ s3 : Life.GameState, s3.chat_open = true → s3.is_dead = false →
      Life.frameInputSend 1 s3 inp = some (Proto.InputPacket.from_input Proto.Input.new)) := by
  obtain ⟨td, htd⟩ : ∃ td, s.player_state = .Dead td := by
    cases hps : s.player_state with
    | Alive => simp [Life.GameState.is_dead, hps] at hd
    | Dead td => exact ⟨td, rfl⟩
  refine ⟨fun s2 => rfl, ?_, ?_, ?_, ?_⟩
  · simp [Life.frameInputSend, hd]
  · simp [Life.onEnterKeyUp, htd]
  · simp [Life.onEnterKeyUp, htd]
  · intro s3 hco hal
    simp [Life.frameInputSend, hco, hal]

/-- Witness for C5 (amended): the concrete dead state suppresses input and the
Enter key revives it. -/
theorem player_lifecycle_witness :
    Life.deadState.is_dead = true ∧
    Life.frameInputSend 1 Life.deadState Life.someInput = none ∧
    (Life.onEnterKeyUp Life.deadState "").1.player_state = .Alive :=
  ⟨by decide,
    (player_lifecycle Life.deadState 5 Life.someInput 1 "" (by decide)).2.1,
    (player_lifecycle Life.deadState 5 Life.someInput 1 "" (by decide)).2.2.1⟩

/-- C9: one Scalar update with a rate strictly between 0 and 1 strictly
shrinks the distance from value to target and never crosses the target:
from below the value strictly grows but stays below, from above it strictly
falls but stays above, so repeated updates converge monotonically. -/
theorem scalar_update_converges (s : Util.Scalar) (r : ℚ)
    (hne : s.value ≠ s.tv) (h0 : 0 < r) (h1 : r < 1) :
    |(s.update r).value - s.tv| < |s.value - s.tv| ∧
    (s.value < s.tv → s.value < (s.update r).value ∧ (s.update r).value < s.tv) ∧
    (s.tv < s.value → s.tv < (s.update r).value ∧ (s.update r).value < s.value) := by
  have key : (s.update r).value - s.tv = (s.value - s.tv) * (1 - r) := by
    show s.value + (s.tv - s.value) * r - s.tv = (s.value - s.tv) * (1 - r)
    ring
  have key2 : (s.update r).value - s.value = (s.tv - s.value) * r := by
    show s.value + (s.tv - s.value) * r - s.value = (s.tv - s.value) * r
    ring
  refine ⟨?_, ?_, ?_⟩
  · rw [key, abs_mul, abs_of_pos (show (0 : ℚ) < 1 - r by linarith)]
    have h3 : 0 < |s.value - s.tv| := abs_pos.mpr (sub_ne_zero.mpr hne)
    nlinarith
  · intro hlt
    constructor
    · nlinarith
    · nlinarith
  · intro hlt
    constructor
    · nlinarith
    · nlinarith

/-- Witness for C9: the scalar with value 0 and target 1 under rate one half. -/
theorem scalar_update_converges_witness :
    (Util.Scalar.mk 0 1).value ≠ (Util.Scalar.mk 0 1).tv ∧
    |((Util.Scalar.mk 0 1).update (1 / 2)).value - (Util.Scalar.mk 0 1).tv| <
      |(Util.Scalar.mk 0 1).value - (Util.Scalar.mk 0 1).tv| :=
  ⟨by norm_num,
    (scalar_update_converges ⟨0, 1⟩ (1 / 2) (by norm_num) (by norm_num) (by norm_num)).1⟩

section AngleLemmas

theorem lerp_angle_eq_arg (a b t : ℝ) :
    Angle.lerp_angle a b t = Complex.arg (Angle.lerpVec a b t) := rfl

theorem lerpVec_ne_zero (a b t : ℝ)
    (hna : ¬ (Real.cos b = -Real.cos a ∧ Real.sin b = -Real.sin a)) :
    Angle.lerpVec a b t ≠ 0 := by
  intro hz
  have hre : Real.cos a + (Real.cos b - Real.cos a) * t = 0 := by
    have h := congrArg Complex.re hz
    simpa [Angle.lerpVec, Util.lerp] using h
  have him : Real.sin a + (Real.sin b - Real.sin a) * t = 0 := by
    have h := congrArg Complex.im hz
    simpa [Angle.lerpVec, Util.lerp] using h
  have hA := Real.sin_sq_add_cos_sq a
  have hB := Real.sin_sq_add_cos_sq b
  have hxe : Real.cos a * (1 - t) = -(Real.cos b * t) := by linear_combination hre
  have hye : Real.sin a * (1 - t) = -(Real.sin b * t) := by linear_combination him
  have hx2 : (Real.cos a * (1 - t)) ^ 2 = (Real.cos b * t) ^ 2 := by rw [hxe]; ring
  have hy2 : (Real.sin a * (1 - t)) ^ 2 = (Real.sin b * t) ^ 2 := by rw [hye]; ring
  have hsq : (1 - t) ^ 2 = t ^ 2 := by
    linear_combination hx2 + hy2 - (1 - t) ^ 2 * hA + t ^ 2 * hB
  have ht2 : t = 1 / 2 := by linear_combination (-1 / 2 : ℝ) * hsq
  apply hna
  constructor
  · rw [ht2] at hre
    linear_combination 2 * hre
  · rw [ht2] at him
    linear_combination 2 * him

theorem lerp_angle_key_ineq (s c A : ℝ) (hs0 : 0 ≤ s) (hs1 : s ≤ 1)
    (hc1 : -1 ≤ c) (hc2 : c ≤ 1) (hA : 0 < A)
    (hA2 : A ^ 2 = 1 - 2 * s * (1 - s) * (1 - c)) :
    c * A ≤ (1 - s) + s * c := by
  have hA1 : A ≤ 1 := by
    nlinarith [mul_nonneg (mul_nonneg hs0 (by linarith : (0:ℝ) ≤ 1 - s))
      (by linarith : (0:ℝ) ≤ 1 - c), sq_nonneg (A - 1), sq_nonneg (A + 1)]
  rcases le_or_lt c 0 with hc | hc
  · rcases le_or_lt 0 ((1 - s) + s * c) with hL | hL
    · nlinarith [mul_nonneg (neg_nonneg.mpr hc) hA.le]
    · have hkey : c ^ 2 * A ^ 2 - ((1 - s) + s * c) ^ 2
          = (c ^ 2 - 1) * (1 - s) * ((1 - s) + 2 * s * c) := by
        linear_combination c ^ 2 * hA2
      have h2sc : (1 - s) + 2 * s * c < 0 := by
        nlinarith [mul_nonpos_of_nonneg_of_nonpos hs0 hc]
      have hfac : (0:ℝ) ≤ (c ^ 2 - 1) * (1 - s) * ((1 - s) + 2 * s * c) := by
        have hf1 : (c ^ 2 - 1) * (1 - s) ≤ 0 :=
          mul_nonpos_of_nonpos_of_nonneg (by nlinarith) (by linarith)
        have hf2 := mul_nonneg (neg_nonneg.mpr hf1) (neg_nonneg.mpr h2sc.le)
        rw [neg_mul_neg] at hf2
        nlinarith [hf2]
      have hge : ((1 - s) + s * c) ^ 2 ≤ (c * A) ^ 2 := by nlinarith [hkey, hfac]
      by_contra hcon
      push_neg at hcon
      have hCA : c * A ≤ 0 := mul_nonpos_of_nonpos_of_nonneg hc hA.le
      nlinarith [hge, mul_pos (sub_pos.mpr hcon)
        (show (0:ℝ) < -(c * A + ((1 - s) + s * c)) by nlinarith)]
  · nlinarith [mul_nonneg (by linarith : (0:ℝ) ≤ 1 - s) (by linarith : (0:ℝ) ≤ 1 - c),
      mul_nonneg hc.le (by linarith : (0:ℝ) ≤ 1 - A)]

theorem lerpVec_normSq (a b t : ℝ) :
    (Complex.abs (Angle.lerpVec a b t)) ^ 2 =
      1 - 2 * t * (1 - t) *
        (1 - (Real.cos b * Real.cos a + Real.sin b * Real.sin a)) := by
  rw [Complex.sq_abs]
  have hA := Real.sin_sq_add_cos_sq a
  have hB := Real.sin_sq_add_cos_sq b
  have hn : Complex.normSq (Angle.lerpVec a b t) =
      (Real.cos a + (Real.cos b - Real.cos a) * t) ^ 2 +
        (Real.sin a + (Real.sin b - Real.sin a) * t) ^ 2 := by
    simp [Angle.lerpVec, Util.lerp, Complex.normSq_mk]
    ring
  rw [hn]
  linear_combination (1 - t) ^ 2 * hA + t ^ 2 * hB

theorem lerp_angle_cos_bound_a (a b t : ℝ) (h0 : 0 ≤ t) (h1 : t ≤ 1)
    (hna : ¬ (Real.cos b = -Real.cos a ∧ Real.sin b = -Real.sin a)) :
    Real.cos (b - a) ≤ Real.cos (Angle.lerp_angle a b t - a) := by
  have hvz := lerpVec_ne_zero a b t hna
  have hApos : 0 < Complex.abs (Angle.lerpVec a b t) := Complex.abs.pos hvz
  have hA2 := lerpVec_normSq a b t
  have hc1 : -1 ≤ Real.cos b * Real.cos a + Real.sin b * Real.sin a := by
    rw [← Real.cos_sub]
    exact Real.neg_one_le_cos (b - a)
  have hc2 : Real.cos b * Real.cos a + Real.sin b * Real.sin a ≤ 1 := by
    rw [← Real.cos_sub]
    exact Real.cos_le_one (b - a)
  have hkey := lerp_angle_key_ineq t
    (Real.cos b * Real.cos a + Real.sin b * Real.sin a)
    (Complex.abs (Angle.lerpVec a b t)) h0 h1 hc1 hc2 hApos hA2
  rw [Real.cos_sub, Real.cos_sub, lerp_angle_eq_arg,
    Complex.cos_arg hvz, Complex.sin_arg]
  have hnum : (Angle.lerpVec a b t).re * Real.cos a + (Angle.lerpVec a b t).im * Real.sin a
      = (1 - t) + t * (Real.cos b * Real.cos a + Real.sin b * Real.sin a) := by
    have hA := Real.sin_sq_add_cos_sq a
    simp only [Angle.lerpVec, Util.lerp]
    linear_combination (1 - t) * hA
  have hre : (Angle.lerpVec a b t).re / Complex.abs (Angle.lerpVec a b t) * Real.cos a +
      (Angle.lerpVec a b t).im / Complex.abs (Angle.lerpVec a b t) * Real.sin a =
      ((Angle.lerpVec a b t).re * Real.cos a + (Angle.lerpVec a b t).im * Real.sin a) /
        Complex.abs (Angle.lerpVec a b t) := by
    ring
  rw [hre, hnum]
  rw [le_div_iff₀ hApos]
  linarith [hkey]

theorem lerp_angle_cos_bound_b (a b t : ℝ) (h0 : 0 ≤ t) (h1 : t ≤ 1)
    (hna : ¬ (Real.cos b = -Real.cos a ∧ Real.sin b = -Real.sin a)) :
    Real.cos (b - a) ≤ Real.cos (b - Angle.lerp_angle a b t) := by
  have hvz := lerpVec_ne_zero a b t hna
  have hApos : 0 < Complex.abs (Angle.lerpVec a b t) := Complex.abs.pos hvz
  have hA2s := lerpVec_normSq a b t
  have hA2 : (Complex.abs (Angle.lerpVec a b t)) ^ 2 =
      1 - 2 * (1 - t) * (1 - (1 - t)) *
        (1 - (Real.cos b * Real.cos a + Real.sin b * Real.sin a)) := by
    rw [hA2s]
    ring
  have hc1 : -1 ≤ Real.cos b * Real.cos a + Real.sin b * Real.sin a := by
    rw [← Real.cos_sub]
    exact Real.neg_one_le_cos (b - a)
  have hc2 : Real.cos b * Real.cos a + Real.sin b * Real.sin a ≤ 1 := by
    rw [← Real.cos_sub]
    exact Real.cos_le_one (b - a)
  have hkey := lerp_angle_key_ineq (1 - t)
    (Real.cos b * Real.cos a + Real.sin b * Real.sin a)
    (Complex.abs (Angle.lerpVec a b t)) (by linarith) (by linarith) hc1 hc2 hApos hA2
  rw [Real.cos_sub, Real.cos_sub, lerp_angle_eq_arg,
    Complex.cos_arg hvz, Complex.sin_arg]
  have hnum : Real.cos b * (Angle.lerpVec a b t).re + Real.sin b * (Angle.lerpVec a b t).im
      = t + (1 - t) * (Real.cos b * Real.cos a + Real.sin b * Real.sin a) := by
    have hB := Real.sin_sq_add_cos_sq b
    simp only [Angle.lerpVec, Util.lerp]
    linear_combination t * hB
  have hre : Real.cos b * ((Angle.lerpVec a b t).re / Complex.abs (Angle.lerpVec a b t)) +
      Real.sin b * ((Angle.lerpVec a b t).im / Complex.abs (Angle.lerpVec a b t)) =
      (Real.cos b * (Angle.lerpVec a b t).re + Real.sin b * (Angle.lerpVec a b t).im) /
        Complex.abs (Angle.lerpVec a b t) := by
    ring
  rw [hre, hnum]
  rw [le_div_iff₀ hApos]
  linarith [hkey]

theorem lerpVec_continuous (a b : ℝ) : Continuous (fun s => Angle.lerpVec a b s) := by
  have hx : Continuous (fun s : ℝ => Util.lerp (Real.cos a) (Real.cos b) s) := by
    unfold Util.lerp
    exact continuous_const.add (continuous_const.mul continuous_id)
  have hy : Continuous (fun s : ℝ => Util.lerp (Real.sin a) (Real.sin b) s) := by
    unfold Util.lerp
    exact continuous_const.add (continuous_const.mul continuous_id)
  have heq : (fun s => Angle.lerpVec a b s) = fun s =>
      ((Util.lerp (Real.cos a) (Real.cos b) s : ℝ) : ℂ) +
        ((Util.lerp (Real.sin a) (Real.sin b) s : ℝ) : ℂ) * Complex.I := by
    funext s
    rw [Angle.lerpVec, Complex.mk_eq_add_mul_I]
  rw [heq]
  exact (Complex.continuous_ofReal.comp hx).add
    ((Complex.continuous_ofReal.comp hy).mul continuous_const)

theorem lerp_angle_continuousOn (a b : ℝ)
    (hna : ¬ (Real.cos b = -Real.cos a ∧ Real.sin b = -Real.sin a)) :
    ContinuousOn (fun s => ((Angle.lerp_angle a b s : ℝ) : Real.Angle)) (Set.Icc 0 1) := by
  intro t _
  have hvz := lerpVec_ne_zero a b t hna
  exact (Complex.continuousAt_arg_coe_angle hvz).comp_continuousWithinAt
    (lerpVec_continuous a b).continuousWithinAt

theorem lerp_angle_line_value (s : ℝ) :
    Angle.lerp_angle 0 Real.pi s = Complex.arg ((1 - 2 * s : ℝ) : ℂ) := by
  rw [lerp_angle_eq_arg]
  congr 1
  apply Complex.ext
  · simp [Angle.lerpVec, Util.lerp, Real.cos_pi]
    ring
  · simp [Angle.lerpVec, Util.lerp, Real.sin_pi]

theorem lerp_angle_pi_instance :
    (∀ t : ℝ, Real.pi / 2 <
      |Angle.lerp_angle (179 * Real.pi / 180) (-(179 * Real.pi / 180)) t|) ∧
    Angle.lerp_angle (179 * Real.pi / 180) (-(179 * Real.pi / 180)) (1 / 2) = Real.pi := by
  have hpi := Real.pi_pos
  set a : ℝ := 179 * Real.pi / 180 with ha
  have hcos : Real.cos a < 0 := by
    apply Real.cos_neg_of_pi_div_two_lt_of_lt
    · rw [ha]; linarith
    · rw [ha]; linarith
  have hxc : ∀ t : ℝ, Util.lerp (Real.cos a) (Real.cos (-a)) t = Real.cos a := by
    intro t
    rw [Real.cos_neg]
    simp [Util.lerp]
  constructor
  · intro t
    unfold Angle.lerp_angle Angle.atan2
    rw [hxc t]
    by_contra hcon
    push_neg at hcon
    have hre : (0 : ℝ) ≤
        (⟨Real.cos a, Util.lerp (Real.sin a) (Real.sin (-a)) t⟩ : ℂ).re :=
      (@Complex.abs_arg_le_pi_div_two_iff
        ⟨Real.cos a, Util.lerp (Real.sin a) (Real.sin (-a)) t⟩).mp hcon
    have hre2 : (0 : ℝ) ≤ Real.cos a := hre
    linarith
  · have hy0 : Util.lerp (Real.sin a) (Real.sin (-a)) ((1 : ℝ) / 2) = 0 := by
      rw [Real.sin_neg]
      simp [Util.lerp]
      ring
    unfold Angle.lerp_angle Angle.atan2
    rw [hxc (1 / 2), hy0]
    have hor : (⟨Real.cos a, 0⟩ : ℂ) = ((Real.cos a : ℝ) : ℂ) := rfl
    rw [hor]
    exact Complex.arg_ofReal_of_neg hcos

end AngleLemmas

/-- C8 counterexample: the claim quantifies over all angles, but at the
antipodal pair a = 0, b = pi the interpolated vector vanishes at t = 1/2 and
lerp_angle returns 0 (the a endpoint, at angular distance pi from b), sits at
0 for t below 1/2 and at pi above it, and the circle-valued path
t to lerp_angle(0, pi, t) is not continuous on [0, 1]: neither the shortest
angular path nor continuity across the wraparound holds there. -/
theorem lerp_angle_antipodal_cex :
    Angle.lerp_angle 0 Real.pi (1 / 2) = 0 ∧
    Angle.lerp_angle 0 Real.pi (1 / 4) = 0 ∧
    Angle.lerp_angle 0 Real.pi (3 / 4) = Real.pi ∧
    ¬ ContinuousOn (fun s => ((Angle.lerp_angle 0 Real.pi s : ℝ) : Real.Angle))
        (Set.Icc (0 : ℝ) 1) := by
  have h12 : Angle.lerp_angle 0 Real.pi (1 / 2) = 0 := by
    rw [lerp_angle_line_value]
    norm_num
  refine ⟨h12, ?_, ?_, ?_⟩
  · rw [lerp_angle_line_value]
    exact Complex.arg_ofReal_of_nonneg (by norm_num)
  · rw [lerp_angle_line_value]
    exact Complex.arg_ofReal_of_neg (by norm_num)
  · intro hc
    have hcw : ContinuousWithinAt
        (fun s => ((Angle.lerp_angle 0 Real.pi s : ℝ) : Real.Angle))
        (Set.Icc (0 : ℝ) 1) (1 / 2) := hc (1 / 2) (by norm_num)
    have hsub : Set.Ioc (1 / 2 : ℝ) 1 ⊆ Set.Icc (0 : ℝ) 1 := by
      intro x hx
      exact ⟨by linarith [hx.1], hx.2⟩
    have hcw2 := (hcw.mono hsub).tendsto
    have hne : (nhdsWithin (1 / 2 : ℝ) (Set.Ioc (1 / 2 : ℝ) 1)).NeBot := by
      apply mem_closure_iff_nhdsWithin_neBot.mp
      rw [closure_Ioc (by norm_num : (1 / 2 : ℝ) ≠ 1)]
      exact ⟨by norm_num, by norm_num⟩
    have hconst : Filter.Tendsto
        (fun s => ((Angle.lerp_angle 0 Real.pi s : ℝ) : Real.Angle))
        (nhdsWithin (1 / 2 : ℝ) (Set.Ioc (1 / 2 : ℝ) 1))
        (nhds ((Real.pi : ℝ) : Real.Angle)) := by
      apply Filter.Tendsto.congr' _ tendsto_const_nhds
      filter_upwards [self_mem_nhdsWithin] with s hs
      have hval : Angle.lerp_angle 0 Real.pi s = Real.pi := by
        rw [lerp_angle_line_value]
        exact Complex.arg_ofReal_of_neg (by linarith [hs.1])
      rw [hval]
    have heq := tendsto_nhds_unique hcw2 hconst
    rw [h12] at heq
    exact Real.Angle.pi_ne_zero (by rw [← heq]; norm_num)

/-- C8 (amended): for every pair of angles a, b that is not antipodal (the
excluded case cos b = -cos a and sin b = -sin a, where the interpolated
vector can vanish) and every t in [0, 1], lerp_angle follows the shortest
angular path: the cosine of its offset from either endpoint is at least the
cosine of the full endpoint offset, so the interpolant never moves farther
from a or from b than the endpoints are from each other, and the
circle-valued path t to lerp_angle(a, b, t) is continuous across the pi
wraparound on [0, 1]; in particular, from 179 degrees to -179 degrees every
interpolant stays beyond pi/2 in absolute value and t = 1/2 lands exactly on
pi, not 0. -/
theorem lerp_angle_short_path (a b t : ℝ) (h0 : 0 ≤ t) (h1 : t ≤ 1)
    (hna : ¬ (Real.cos b = -Real.cos a ∧ Real.sin b = -Real.sin a)) :
    Real.cos (b - a) ≤ Real.cos (Angle.lerp_angle a b t - a) ∧
    Real.cos (b - a) ≤ Real.cos (b - Angle.lerp_angle a b t) ∧
    ContinuousOn (fun s => ((Angle.lerp_angle a b s : ℝ) : Real.Angle)) (Set.Icc 0 1) ∧
    (∀ s : ℝ, Real.pi / 2 <
      |Angle.lerp_angle (179 * Real.pi / 180) (-(179 * Real.pi / 180)) s|) ∧
    Angle.lerp_angle (179 * Real.pi / 180) (-(179 * Real.pi / 180)) (1 / 2) = Real.pi :=
  ⟨lerp_angle_cos_bound_a a b t h0 h1 hna,
   lerp_angle_cos_bound_b a b t h0 h1 hna,
   lerp_angle_continuousOn a b hna,
   lerp_angle_pi_instance.1,
   lerp_angle_pi_instance.2⟩

/-- Witness for C8 (amended): the non-antipodal pair a = 0, b = pi/2 at
t = 1/2. -/
theorem lerp_angle_short_path_witness :
    (¬ (Real.cos (Real.pi / 2) = -Real.cos 0 ∧ Real.sin (Real.pi / 2) = -Real.sin 0)) ∧
    Real.cos (Real.pi / 2 - 0) ≤
      Real.cos (Angle.lerp_angle 0 (Real.pi / 2) (1 / 2) - 0) :=
  ⟨by
    intro h
    rw [Real.cos_pi_div_two, Real.cos_zero] at h
    exact absurd h.1 (by norm_num),
   (lerp_angle_short_path 0 (Real.pi / 2) (1 / 2) (by norm_num) (by norm_num)
     (by
       intro h
       rw [Real.cos_pi_div_two, Real.cos_zero] at h
       exact absurd h.1 (by norm_num))).1⟩
